import Mathlib

/-!
# Verification of the ATP scraping pipeline's core transformation layer

A shallow embedding, in Lean 4, of the record/validation layer and the
consolidation algorithms of the `all-the-predictions` repository
(`atp/schemas.py`, `atp/player_id_corrections.py`,
`atp/tournament/schedule.py`, `atp/tournament/results.py`,
`atp/tournament/match_stats.py`, `atp/base_job.py`), together with
theorems settling the specification's testable properties.

Python machine-level conventions used throughout the embedding:
* Python `str` values are Lean `String`s; `str.upper` is modelled
  character-wise for the ASCII range (all player IDs and UID components
  are ASCII).
* Python `int` is Lean `Int`; `datetime`/`timedelta` values are modelled
  as integers (seconds), which preserves ordering and addition — the only
  operations the code performs on them.
* A Python function that can raise is modelled as `Except String α`,
  the error payload being the exception message.
* Python dicts keyed by hashable values with insertion-order semantics
  are modelled as association lists with replace-in-place update.
-/

/-! ## Identity model: `Round` (atp/schemas.py)

`Round` is a `StrEnum`-style enum whose `value` equals the member name
(`_generate_next_value_` returns `name`). `Round[text]` (name lookup,
used by `ScheduleTransformer._parse_round`) is modelled by `Round.ofName`.
-/

inductive Round where
  | F | SF | QF | R16 | R32 | R64 | R128 | RR | Q3 | Q2 | Q1 | BRONZE | THIRDPLACE
deriving DecidableEq, Repr

/-- The enum member's `value`: equal to its name (see `_generate_next_value_`). -/
def Round.value : Round → String
  | .F => "F"
  | .SF => "SF"
  | .QF => "QF"
  | .R16 => "R16"
  | .R32 => "R32"
  | .R64 => "R64"
  | .R128 => "R128"
  | .RR => "RR"
  | .Q3 => "Q3"
  | .Q2 => "Q2"
  | .Q1 => "Q1"
  | .BRONZE => "BRONZE"
  | .THIRDPLACE => "THIRDPLACE"

/-- `Round[name]` lookup; `none` models the `KeyError` branch. -/
def Round.ofName : String → Option Round
  | "F" => some .F
  | "SF" => some .SF
  | "QF" => some .QF
  | "R16" => some .R16
  | "R32" => some .R32
  | "R64" => some .R64
  | "R128" => some .R128
  | "RR" => some .RR
  | "Q3" => some .Q3
  | "Q2" => some .Q2
  | "Q1" => some .Q1
  | "BRONZE" => some .BRONZE
  | "THIRDPLACE" => some .THIRDPLACE
  | _ => none

/-! ## Python string helpers -/

/-- Python `str.upper`, modelled character-wise (ASCII). -/
def pyUpper (s : String) : String := String.mk (s.data.map Char.toUpper)

/-- Python `<` on strings: strict lexicographic comparison by code point. -/
def pyStrLtChars : List Char → List Char → Bool
  | [], [] => false
  | [], _ :: _ => true
  | _ :: _, [] => false
  | c :: cs, d :: ds =>
    if c < d then true
    else if d < c then false
    else pyStrLtChars cs ds

/-- Python `a < b` on strings. -/
def pyStrLt (a b : String) : Bool := pyStrLtChars a.data b.data

/-- Python `sorted([a, b])` on two strings: stable two-element sort by the
lexicographic (code-point) order. -/
def pySort2 (a b : String) : List String := if pyStrLt b a then [b, a] else [a, b]

deriving instance DecidableEq for Except

/-- Python `"_".join(l)`. -/
def joinUnderscore : List String → String
  | [] => ""
  | [x] => x
  | x :: y :: rest => x ++ "_" ++ joinUnderscore (y :: rest)

/-- The single-quote character, used when rendering Python `repr` of strings. -/
def pySQuote : String := String.mk [Char.ofNat 39]

/-- Python `repr` of a plain string (no escaping needed for the IDs involved). -/
def pyStrRepr (s : String) : String := pySQuote ++ s ++ pySQuote

/-- Python `repr` of a list of strings, as interpolated by an f-string. -/
def pyListRepr (l : List String) : String :=
  "[" ++ String.intercalate ", " (l.map pyStrRepr) ++ "]"

/-! ## `MATCH_UID_PATTERN` and `create_match_uid` (atp/schemas.py lines 102-131) -/

/-- One character of the `[A-Z0-9]` class. -/
def isUidIdChar (c : Char) : Bool := c.isUpper || c.isDigit

/-- Split a character list on `_` (underscore never occurs in any of the
pattern's character classes, so the regex match is equivalent to a field-wise
check of the `_`-separated fields). -/
def splitUnderscore : List Char → List (List Char)
  | [] => [[]]
  | c :: rest =>
    if c = '_' then [] :: splitUnderscore rest
    else
      match splitUnderscore rest with
      | [] => [[c]]
      | f :: fs => (c :: f) :: fs

/-- `MATCH_UID_PATTERN = ^\d-4_\d+_(SGL|DBL)_[A-Z0-9]+_[A-Z0-9]+_[A-Z0-9]+$`:
a full match holds iff the string has exactly six `_`-separated fields of the
respective classes (none of the classes contains `_`, and the pattern is
anchored at both ends). -/
def matchUidPattern (s : String) : Bool :=
  match splitUnderscore s.data with
  | [y, t, d, r, a, b] =>
    y.length == 4 && y.all Char.isDigit &&
    !t.isEmpty && t.all Char.isDigit &&
    (d == "SGL".data || d == "DBL".data) &&
    !r.isEmpty && r.all isUidIdChar &&
    !a.isEmpty && a.all isUidIdChar &&
    !b.isEmpty && b.all isUidIdChar
  | _ => false

/-- The f-string composing the match UID inside `create_match_uid`. -/
def composeMatchUid (year tournament_id : Int) (round : Round)
    (p1_id p2_id : String) (is_doubles : Bool) : String :=
  toString year ++ "_" ++ toString tournament_id ++ "_"
    ++ (if is_doubles then "DBL" else "SGL") ++ "_" ++ round.value ++ "_"
    ++ joinUnderscore (pySort2 (pyUpper p1_id) (pyUpper p2_id))

/-- The `ValueError` message raised by `create_match_uid`, including the
Sportradar remediation hint when a player ID contains a colon. -/
def matchUidError (match_uid p1_id p2_id : String) : String :=
  let bad_ids := [p1_id, p2_id].filter (fun pid => pid.data.contains ':')
  let hint :=
    if bad_ids.isEmpty then ""
    else " Player ID(s) " ++ pyListRepr bad_ids ++
      " look like Sportradar format — add correction to atp/player_id_corrections.py."
  "Generated invalid match_uid: " ++ match_uid ++ "." ++ hint

/-- `create_match_uid(year, tournament_id, round, p1_id, p2_id, is_doubles)`:
uppercase and sort the two player IDs, compose the UID, validate it against
`MATCH_UID_PATTERN`, and raise `ValueError` (here: `Except.error`) with a
Sportradar hint when the composed key does not match. -/
def create_match_uid (year tournament_id : Int) (round : Round)
    (p1_id p2_id : String) (is_doubles : Bool) : Except String String :=
  let match_uid := composeMatchUid year tournament_id round p1_id p2_id is_doubles
  if matchUidPattern match_uid then
    Except.ok match_uid
  else
    Except.error (matchUidError match_uid p1_id p2_id)

example : create_match_uid 2026 375 Round.F "AB12" "CD34" false =
    Except.ok "2026_375_SGL_F_AB12_CD34" := by decide

example : create_match_uid 2026 375 Round.F "AB12" "CD34" true =
    Except.ok "2026_375_DBL_F_AB12_CD34" := by decide

example : create_match_uid 2026 375 Round.F "ZZ99" "AA01" false =
    Except.ok "2026_375_SGL_F_AA01_ZZ99" := by decide

example : create_match_uid 2026 375 Round.SF "ab12" "cd34" false =
    Except.ok "2026_375_SGL_SF_AB12_CD34" := by decide

example : (create_match_uid 2026 375 Round.F "AB 12" "CD34" false).isOk = false := by decide

/-! ## Properties of `create_match_uid` -/

theorem pyStrLtChars_asymm : ∀ a b : List Char,
    pyStrLtChars a b = true → pyStrLtChars b a = false
  | [], [] => by simp [pyStrLtChars]
  | [], _ :: _ => by simp [pyStrLtChars]
  | _ :: _, [] => by simp [pyStrLtChars]
  | c :: cs, d :: ds => by
    simp only [pyStrLtChars]
    intro h
    rcases lt_trichotomy c d with hcd | hcd | hcd
    · rw [if_neg (not_lt_of_lt hcd), if_pos hcd]
    · subst hcd
      rw [if_neg (lt_irrefl c), if_neg (lt_irrefl c)] at h ⊢
      exact pyStrLtChars_asymm cs ds h
    · rw [if_neg (not_lt_of_lt hcd), if_pos hcd] at h
      exact absurd h (by simp)

theorem pyStrLtChars_eq_of_not_lt : ∀ a b : List Char,
    pyStrLtChars a b = false → pyStrLtChars b a = false → a = b
  | [], [] => by simp
  | [], _ :: _ => by simp [pyStrLtChars]
  | _ :: _, [] => by simp [pyStrLtChars]
  | c :: cs, d :: ds => by
    simp only [pyStrLtChars]
    intro h₁ h₂
    rcases lt_trichotomy c d with hcd | hcd | hcd
    · rw [if_pos hcd] at h₁; exact absurd h₁ (by simp)
    · subst hcd
      rw [if_neg (lt_irrefl c), if_neg (lt_irrefl c)] at h₁ h₂
      rw [pyStrLtChars_eq_of_not_lt cs ds h₁ h₂]
    · rw [if_pos hcd] at h₂; exact absurd h₂ (by simp)

theorem pySort2_comm (a b : String) : pySort2 a b = pySort2 b a := by
  unfold pySort2
  cases h₁ : pyStrLt b a with
  | true =>
    have h₂ : pyStrLt a b = false := pyStrLtChars_asymm _ _ h₁
    rw [h₂]
    simp
  | false =>
    cases h₂ : pyStrLt a b with
    | true => simp
    | false =>
      have hab : a = b := by
        cases a with
        | mk da =>
          cases b with
          | mk db => exact congrArg String.mk (pyStrLtChars_eq_of_not_lt da db h₂ h₁)
      rw [hab]

theorem composeMatchUid_symm (year tournament_id : Int) (round : Round)
    (A B : String) (d : Bool) :
    composeMatchUid year tournament_id round A B d =
      composeMatchUid year tournament_id round B A d := by
  unfold composeMatchUid
  rw [pySort2_comm]

/-- C1: `create_match_uid` is order-independent in the two player IDs (the
uppercased IDs are sorted before composing the key), and—being a pure
function—is stable across repeated calls with the same inputs. -/
theorem create_match_uid_symmetric (year tournament_id : Int) (round : Round)
    (A B : String) (d : Bool) (s : String)
    (h : create_match_uid year tournament_id round A B d = Except.ok s) :
    create_match_uid year tournament_id round B A d = Except.ok s ∧
    create_match_uid year tournament_id round A B d =
      create_match_uid year tournament_id round A B d := by
  refine ⟨?_, rfl⟩
  simp only [create_match_uid] at h ⊢
  rw [← composeMatchUid_symm year tournament_id round A B d]
  cases hm : matchUidPattern (composeMatchUid year tournament_id round A B d) with
  | true => rw [hm] at h; simpa using h
  | false => rw [hm] at h; exact absurd h (by simp)

/-- Applies C1's theorem at a concrete input. -/
theorem create_match_uid_symmetric_witness :
    create_match_uid 2026 375 Round.F "ZZ99" "AA01" false =
      Except.ok "2026_375_SGL_F_AA01_ZZ99" :=
  (create_match_uid_symmetric 2026 375 Round.F "AA01" "ZZ99" false
    "2026_375_SGL_F_AA01_ZZ99" (by decide)).1

/-! ### The UID pattern admits no stray characters -/

theorem bool_and_elim {a b : Bool} (h : (a && b) = true) : a = true ∧ b = true := by
  cases a <;> cases b <;> simp_all

theorem bool_or_elim {a b : Bool} (h : (a || b) = true) : a = true ∨ b = true := by
  cases a <;> cases b <;> simp_all

theorem splitUnderscore_ne_nil : ∀ cs : List Char, splitUnderscore cs ≠ []
  | [] => by simp [splitUnderscore]
  | c :: rest => by
    simp only [splitUnderscore]
    split
    · simp
    · cases h : splitUnderscore rest <;> simp

theorem mem_splitUnderscore {c : Char} : ∀ {cs : List Char}, c ∈ cs → c ≠ '_' →
    ∃ f ∈ splitUnderscore cs, c ∈ f := by
  intro cs
  induction cs with
  | nil => intro h; exact absurd h (by simp)
  | cons c' rest ih =>
    intro hmem hne
    by_cases hc' : c' = '_'
    · subst hc'
      have hcr : c ∈ rest := by
        rcases List.mem_cons.mp hmem with h | h
        · exact absurd h hne
        · exact h
      obtain ⟨f, hf, hcf⟩ := ih hcr hne
      refine ⟨f, ?_, hcf⟩
      simp only [splitUnderscore, if_pos rfl]
      exact List.mem_cons_of_mem _ hf
    · cases heq : splitUnderscore rest with
      | nil => exact absurd heq (splitUnderscore_ne_nil rest)
      | cons f0 fs =>
        have hsplit : splitUnderscore (c' :: rest) = (c' :: f0) :: fs := by
          simp only [splitUnderscore, if_neg hc', heq]
        rcases List.mem_cons.mp hmem with h | h
        · subst h
          exact ⟨c :: f0, by rw [hsplit]; exact List.mem_cons_self _ _, List.mem_cons_self _ _⟩
        · obtain ⟨f, hf, hcf⟩ := ih h hne
          rw [heq] at hf
          rcases List.mem_cons.mp hf with hf0 | hfs
          · subst hf0
            exact ⟨c' :: f, by rw [hsplit]; exact List.mem_cons_self _ _,
              List.mem_cons_of_mem _ hcf⟩
          · exact ⟨f, by rw [hsplit]; exact List.mem_cons_of_mem _ hfs, hcf⟩

/-- Every character of a string matching `MATCH_UID_PATTERN` is an underscore,
a digit, an `[A-Z0-9]` character, or a letter of `SGL`/`DBL`. -/
theorem matchUidPattern_mem_classes {s : String} (h : matchUidPattern s = true)
    {c : Char} (hc : c ∈ s.data) :
    c = '_' ∨ c.isDigit = true ∨ isUidIdChar c = true ∨ c ∈ "SGL".data ∨ c ∈ "DBL".data := by
  by_cases hu : c = '_'
  · exact Or.inl hu
  obtain ⟨f, hf, hcf⟩ := mem_splitUnderscore hc hu
  unfold matchUidPattern at h
  cases heq : splitUnderscore s.data with
  | nil => rw [heq] at h; exact absurd h (by simp)
  | cons y rest =>
    rw [heq] at h hf
    match rest with
    | [t, d, r, a, b] =>
      obtain ⟨h1, hb'⟩ := bool_and_elim h
      obtain ⟨h2, hb0⟩ := bool_and_elim h1
      obtain ⟨h3, ha'⟩ := bool_and_elim h2
      obtain ⟨h4, ha0⟩ := bool_and_elim h3
      obtain ⟨h5, hr'⟩ := bool_and_elim h4
      obtain ⟨h6, hr0⟩ := bool_and_elim h5
      obtain ⟨h7, hd⟩ := bool_and_elim h6
      obtain ⟨h8, ht'⟩ := bool_and_elim h7
      obtain ⟨h9, ht0⟩ := bool_and_elim h8
      obtain ⟨hylen, hy⟩ := bool_and_elim h9
      have hy' := List.all_eq_true.mp hy
      have ht'' := List.all_eq_true.mp ht'
      have hr'' := List.all_eq_true.mp hr'
      have ha'' := List.all_eq_true.mp ha'
      have hb'' := List.all_eq_true.mp hb'
      fin_cases hf
      · exact Or.inr (Or.inl (hy' c hcf))
      · exact Or.inr (Or.inl (ht'' c hcf))
      · rcases bool_or_elim hd with hd' | hd'
        · rw [eq_of_beq hd'] at hcf
          exact Or.inr (Or.inr (Or.inr (Or.inl hcf)))
        · rw [eq_of_beq hd'] at hcf
          exact Or.inr (Or.inr (Or.inr (Or.inr hcf)))
      · exact Or.inr (Or.inr (Or.inl (hr'' c hcf)))
      · exact Or.inr (Or.inr (Or.inl (ha'' c hcf)))
      · exact Or.inr (Or.inr (Or.inl (hb'' c hcf)))
    | [] => exact absurd h (by simp)
    | [_] => exact absurd h (by simp)
    | [_, _] => exact absurd h (by simp)
    | [_, _, _] => exact absurd h (by simp)
    | _ :: _ :: _ :: _ :: _ :: _ :: _ => exact absurd h (by simp)

theorem mem_pyUpper {c : Char} {s : String} (h : c ∈ s.data) (hfix : c.toUpper = c) :
    c ∈ (pyUpper s).data := by
  unfold pyUpper
  exact List.mem_map.mpr ⟨c, h, hfix⟩

theorem mem_left_pySort2 (a b : String) : a ∈ pySort2 a b := by
  unfold pySort2; split <;> simp

theorem mem_right_pySort2 (a b : String) : b ∈ pySort2 a b := by
  unfold pySort2; split <;> simp

theorem mem_joinUnderscore {c : Char} : ∀ {l : List String} {x : String},
    x ∈ l → c ∈ x.data → c ∈ (joinUnderscore l).data := by
  intro l
  induction l with
  | nil => intro x hx; exact absurd hx (by simp)
  | cons y rest ih =>
    intro x hx hcx
    cases rest with
    | nil =>
      have : x = y := by simpa using hx
      subst this
      simpa [joinUnderscore] using hcx
    | cons z zs =>
      show c ∈ (y ++ "_" ++ joinUnderscore (z :: zs)).data
      rw [String.data_append, String.data_append]
      rcases List.mem_cons.mp hx with h | h
      · subst h
        exact List.mem_append_left _ (List.mem_append_left _ hcx)
      · exact List.mem_append_right _ (ih h hcx)

theorem mem_composeMatchUid {c : Char} (year tournament_id : Int) (round : Round)
    (p1 p2 : String) (d : Bool)
    (h : c ∈ (pyUpper p1).data ∨ c ∈ (pyUpper p2).data) :
    c ∈ (composeMatchUid year tournament_id round p1 p2 d).data := by
  unfold composeMatchUid
  rw [String.data_append]
  refine List.mem_append_right _ ?_
  rcases h with h | h
  · exact mem_joinUnderscore (mem_left_pySort2 _ _) h
  · exact mem_joinUnderscore (mem_right_pySort2 _ _) h

/-- A character that fits none of the pattern's classes cannot occur in a
string accepted by `MATCH_UID_PATTERN`. -/
theorem matchUidPattern_eq_false_of_mem {s : String} {c : Char} (hc : c ∈ s.data)
    (h1 : c ≠ '_') (h2 : c.isDigit = false) (h3 : isUidIdChar c = false)
    (h4 : c ∉ "SGL".data) (h5 : c ∉ "DBL".data) : matchUidPattern s = false := by
  cases hp : matchUidPattern s with
  | false => rfl
  | true =>
    rcases matchUidPattern_mem_classes hp hc with h | h | h | h | h
    · exact absurd h h1
    · rw [h2] at h; exact absurd h (by simp)
    · rw [h3] at h; exact absurd h (by simp)
    · exact absurd h h4
    · exact absurd h h5

/-- C2: every key returned by `create_match_uid` matches `MATCH_UID_PATTERN`;
an input whose player ID contains a space raises instead of returning a key;
and an input whose player ID contains a colon (a foreign Sportradar-format ID)
raises with the remediation hint naming `atp/player_id_corrections.py`. -/
theorem create_match_uid_format_validity :
    (∀ (year tournament_id : Int) (round : Round) (p1 p2 : String) (d : Bool) (s : String),
      create_match_uid year tournament_id round p1 p2 d = Except.ok s →
      matchUidPattern s = true) ∧
    (∀ (year tournament_id : Int) (round : Round) (p1 p2 : String) (d : Bool),
      (' ' ∈ p1.data ∨ ' ' ∈ p2.data) →
      (create_match_uid year tournament_id round p1 p2 d).isOk = false) ∧
    (∀ (year tournament_id : Int) (round : Round) (p1 p2 : String) (d : Bool),
      (':' ∈ p1.data ∨ ':' ∈ p2.data) →
      create_match_uid year tournament_id round p1 p2 d =
        Except.error ("Generated invalid match_uid: "
          ++ composeMatchUid year tournament_id round p1 p2 d ++ "."
          ++ (" Player ID(s) "
            ++ pyListRepr ([p1, p2].filter (fun pid => pid.data.contains ':'))
            ++ " look like Sportradar format — add correction to atp/player_id_corrections.py."))) := by
  refine ⟨?_, ?_, ?_⟩
  · intro year tournament_id round p1 p2 d s h
    simp only [create_match_uid] at h
    cases hp : matchUidPattern (composeMatchUid year tournament_id round p1 p2 d) with
    | true =>
      rw [hp] at h
      simp only [if_true] at h
      cases h
      exact hp
    | false => rw [hp] at h; exact absurd h (by simp)
  · intro year tournament_id round p1 p2 d h
    have hmem : ' ' ∈ (composeMatchUid year tournament_id round p1 p2 d).data := by
      refine mem_composeMatchUid year tournament_id round p1 p2 d ?_
      rcases h with h | h
      · exact Or.inl (mem_pyUpper h (by decide))
      · exact Or.inr (mem_pyUpper h (by decide))
    have hp := matchUidPattern_eq_false_of_mem hmem (by decide) (by decide) (by decide)
      (by decide) (by decide)
    simp only [create_match_uid, hp]
    simp only [Bool.false_eq_true, if_false]
    rfl
  · intro year tournament_id round p1 p2 d h
    have hmem : ':' ∈ (composeMatchUid year tournament_id round p1 p2 d).data := by
      refine mem_composeMatchUid year tournament_id round p1 p2 d ?_
      rcases h with h | h
      · exact Or.inl (mem_pyUpper h (by decide))
      · exact Or.inr (mem_pyUpper h (by decide))
    have hp := matchUidPattern_eq_false_of_mem hmem (by decide) (by decide) (by decide)
      (by decide) (by decide)
    have hbad : ([p1, p2].filter (fun pid => pid.data.contains ':')).isEmpty = false := by
      rcases h with h | h
      · have h1 : p1.data.contains ':' = true := List.elem_iff.mpr h
        simp only [List.filter, h1, List.isEmpty_cons]
      · have h2 : p2.data.contains ':' = true := List.elem_iff.mpr h
        cases h1 : p1.data.contains ':' <;>
          simp only [List.filter, h1, h2, List.isEmpty_cons]
    simp only [create_match_uid, hp]
    simp only [Bool.false_eq_true, if_false]
    simp only [matchUidError]
    rw [hbad]
    rfl

/-- Applies C2's theorem at concrete inputs: a well-formed key matches the
pattern, and IDs with a space or a Sportradar colon raise. -/
theorem create_match_uid_format_validity_witness :
    matchUidPattern "2026_375_SGL_F_AB12_CD34" = true ∧
    (create_match_uid 2026 375 Round.F "AB 12" "CD34" false).isOk = false ∧
    create_match_uid 2026 580 Round.Q1 "SR:COMPETITOR:972327" "CD34" false =
      Except.error ("Generated invalid match_uid: "
        ++ composeMatchUid 2026 580 Round.Q1 "SR:COMPETITOR:972327" "CD34" false ++ "."
        ++ (" Player ID(s) "
          ++ pyListRepr (["SR:COMPETITOR:972327", "CD34"].filter (fun pid => pid.data.contains ':'))
          ++ " look like Sportradar format — add correction to atp/player_id_corrections.py.")) :=
  ⟨create_match_uid_format_validity.1 2026 375 Round.F "AB12" "CD34" false
      "2026_375_SGL_F_AB12_CD34" (by decide),
    create_match_uid_format_validity.2.1 2026 375 Round.F "AB 12" "CD34" false
      (Or.inl (by decide)),
    create_match_uid_format_validity.2.2 2026 580 Round.Q1 "SR:COMPETITOR:972327" "CD34" false
      (Or.inl (by decide))⟩

/-! ## Seed/entry annotation parsing

`ResultsTransformer._parse_seed_entry` (atp/tournament/results.py lines
358-379) splits the seed/entry annotation extracted from a player's name div
(already stripped of surrounding parentheses; `none` models the absent-span
case). The schedule stager's helper `parse_seed_entry` is imported by
`atp/tournament/schedule.py` from `atp.schemas` but is not present in the
provided sources, so it is modelled from the spec below.
-/

/-- Python `int(s)`: optional surrounding whitespace, an optional sign, then
a digit sequence in which single underscores may separate digits (ASCII). -/
def pyDigitRest : List Char → Bool
  | [] => true
  | '_' :: c :: rest => c.isDigit && pyDigitRest rest
  | c :: rest => c.isDigit && pyDigitRest rest

def pyDigitPart : List Char → Bool
  | [] => false
  | c :: rest => c.isDigit && pyDigitRest rest

def natOfDigits (cs : List Char) : Nat :=
  cs.foldl (fun acc c => acc * 10 + (c.toNat - 48)) 0

def pyIntOfString (s : String) : Option Int :=
  let cs := ((s.data.dropWhile Char.isWhitespace).reverse.dropWhile
    Char.isWhitespace).reverse
  match cs with
  | '+' :: rest =>
    if pyDigitPart rest then some (Int.ofNat (natOfDigits (rest.filter (fun c => c ≠ '_'))))
    else none
  | '-' :: rest =>
    if pyDigitPart rest then some (-(Int.ofNat (natOfDigits (rest.filter (fun c => c ≠ '_')))))
    else none
  | rest =>
    if pyDigitPart rest then some (Int.ofNat (natOfDigits (rest.filter (fun c => c ≠ '_'))))
    else none

example : pyIntOfString "3" = some 3 := by decide
example : pyIntOfString "-12" = some (-12) := by decide
example : pyIntOfString "WC" = none := by decide
example : pyIntOfString "" = none := by decide

/-- Python `value.split(sep, 1)` for a single character separator, returning
the parts before and after the first occurrence (the code only reads the
second part when the separator is known to occur). -/
def pySplitOnce : List Char → List Char × List Char
  | [] => ([], [])
  | c :: rest =>
    if c = '/' then ([], rest)
    else
      let p := pySplitOnce rest
      (c :: p.1, p.2)

/-- `ResultsTransformer._parse_seed_entry`, from the stripped annotation value:
empty gives `(None, None)`; a value containing `/` tries `int` on the part
before the first `/` — on success the part after it (empty coerced to `None`)
is the entry code, on `ValueError` the whole value becomes the entry code;
otherwise the value itself is tried as `int`, falling back to the value as
entry code. -/
def results_parse_seed_entry (value : Option String) : Option Int × Option String :=
  match value with
  | none => (none, none)
  | some v =>
    if v.data.isEmpty then (none, none)
    else if v.data.contains '/' then
      let parts := pySplitOnce v.data
      match pyIntOfString (String.mk parts.1) with
      | some n => (some n, if parts.2.isEmpty then none else some (String.mk parts.2))
      | none => (none, some v)
    else
      match pyIntOfString v with
      | some n => (some n, none)
      | none => (none, some v)

/-- Modelled from the spec: the schedule stager's seed/entry split helper
(`parse_seed_entry`, imported by `atp/tournament/schedule.py` from
`atp.schemas` but absent from the provided sources). Spec §4.3 step 5:
"empty→(null,null); contains `/`→(left part as int if possible else null,
right part as entry code); else→(value as int if possible, else value itself
as entry code)" (an empty right part carries no entry code, per the
spec-wide empty-string→null coercion). -/
def parse_seed_entry (value : Option String) : Option Int × Option String :=
  match value with
  | none => (none, none)
  | some v =>
    if v.data.isEmpty then (none, none)
    else if v.data.contains '/' then
      let parts := pySplitOnce v.data
      (pyIntOfString (String.mk parts.1),
        if parts.2.isEmpty then none else some (String.mk parts.2))
    else
      match pyIntOfString v with
      | some n => (some n, none)
      | none => (none, some v)

example : results_parse_seed_entry (some "1") = (some 1, none) := by decide
example : results_parse_seed_entry (some "WC") = (none, some "WC") := by decide
example : results_parse_seed_entry (some "1/Alt") = (some 1, some "Alt") := by decide
example : results_parse_seed_entry (some "") = (none, none) := by decide
example : results_parse_seed_entry none = (none, none) := by decide
example : parse_seed_entry (some "1/Alt") = (some 1, some "Alt") := by decide
example : parse_seed_entry (some "LL") = (none, some "LL") := by decide

/-- C9 (counterexample): on an annotation containing `/` whose left part is
not an integer, the results parser returns the whole value as the entry code,
not the part after the `/` as the claim states. -/
theorem results_parse_seed_entry_counterexample :
    results_parse_seed_entry (some "A/B") = (none, some "A/B") ∧
    results_parse_seed_entry (some "A/B") ≠ (none, some "B") := by
  constructor
  · decide
  · decide

/-- C9 (amended): the seed/entry split rule as implemented. Empty input gives
`(null, null)`; a `/`-free value parses as `(int, null)` or `(null, value)`;
a `/`-containing value whose left part parses as an int gives that int and
the (empty-coerced) right part; a `/`-containing value whose left part does
NOT parse gives `(null, the entire value)` — the one deviation from the
spec's wording. On every input outside that deviant case the results parser
and the (spec-modelled) schedule parser agree. -/
theorem parse_seed_entry_amended :
    (results_parse_seed_entry none = (none, none) ∧ parse_seed_entry none = (none, none)) ∧
    (∀ v : String, v.data.contains '/' = false →
      results_parse_seed_entry (some v) = parse_seed_entry (some v)) ∧
    (∀ v : String, v.data.contains '/' = true →
      pyIntOfString (String.mk (pySplitOnce v.data).1) ≠ none →
      results_parse_seed_entry (some v) = parse_seed_entry (some v)) ∧
    (∀ v : String, v.data.contains '/' = true →
      pyIntOfString (String.mk (pySplitOnce v.data).1) = none →
      results_parse_seed_entry (some v) = (none, some v)) := by
  refine ⟨⟨rfl, rfl⟩, ?_, ?_, ?_⟩
  · intro v h
    have h' : '/' ∉ v.data := fun hm =>
      Bool.noConfusion ((List.elem_iff.mpr hm).symm.trans h)
    by_cases he : v.data.isEmpty
    · simp [results_parse_seed_entry, parse_seed_entry, he]
    · simp [results_parse_seed_entry, parse_seed_entry, he, h']
  · intro v h hn
    have h' : '/' ∈ v.data := List.elem_iff.mp h
    have he : v.data.isEmpty = false := by
      cases hv : v.data with
      | nil => rw [hv] at h; exact absurd h (by simp)
      | cons c cs => simp
    obtain ⟨n, hn'⟩ := Option.ne_none_iff_exists'.mp hn
    simp [results_parse_seed_entry, parse_seed_entry, he, h', hn']
  · intro v h hn
    have h' : '/' ∈ v.data := List.elem_iff.mp h
    have he : v.data.isEmpty = false := by
      cases hv : v.data with
      | nil => rw [hv] at h; exact absurd h (by simp)
      | cons c cs => simp
    simp [results_parse_seed_entry, he, h', hn]

/-- Applies C9's amended theorem at concrete annotations: a plain entry code,
a seed/entry pair, and the deviant non-integer-left case. -/
theorem parse_seed_entry_amended_witness :
    results_parse_seed_entry (some "WC") = parse_seed_entry (some "WC") ∧
    results_parse_seed_entry (some "1/Alt") = parse_seed_entry (some "1/Alt") ∧
    results_parse_seed_entry (some "A/B") = (none, some "A/B") :=
  ⟨parse_seed_entry_amended.2.1 "WC" (by decide),
    parse_seed_entry_amended.2.2.1 "1/Alt" (by decide) (by decide),
    parse_seed_entry_amended.2.2.2 "A/B" (by decide) (by decide)⟩

/-! ## Player ID corrections (atp/player_id_corrections.py) -/

/-- The manual `(bad_id_uppercased, tournament_id, year) -> correct_4char_id`
correction table. -/
def _CORRECTIONS : List ((String × Int × Int) × String) := [
  (("SR:COMPETITOR:972327", 580, 2026), "J0DZ"),
  (("SR:COMPETITOR:1055851", 580, 2026), "H0K0"),
  (("SR:COMPETITOR:59700", 580, 2026), "I326"),
  (("SR:COMPETITOR:145936", 580, 2026), "KH77"),
  (("SR:COMPETITOR:637610", 8096, 2026), "O0BI"),
  (("SR:COMPETITOR:1021133", 8096, 2026), "M0UR"),
  (("SR:COMPETITOR:915589", 8096, 2026), "V0GR"),
  (("SR:COMPETITOR:915951", 8096, 2026), "R0IL"),
  (("SR:COMPETITOR:617530", 8096, 2026), "W0BU"),
  (("SR:COMPETITOR:168420", 8096, 2026), "AG08")]

/-- `correct_player_id`: IDs without a colon pass through; colon-containing
IDs are corrected via the table when mapped, else returned unchanged (the
warning log is not modelled). -/
def correct_player_id (player_id : String) (tournament_id year : Int) : String :=
  if !(player_id.data.contains ':') then player_id
  else
    match _CORRECTIONS.find? (fun e => e.1 == (pyUpper player_id, tournament_id, year)) with
    | some e => e.2
    | none => player_id

example : correct_player_id "AB12" 580 2026 = "AB12" := by decide
example : correct_player_id "SR:COMPETITOR:972327" 580 2026 = "J0DZ" := by decide
example : correct_player_id "SR:COMPETITOR:999999" 580 2026 = "SR:COMPETITOR:999999" := by
  decide

/-! ## Record schemas and construction-time validators (atp/schemas.py)

Each pydantic model is embedded as a structure holding the already
type-coerced input fields, plus a construction function `mk...` running, in
source order, the `mode="before"` uppercasing field validator and the
`mode="after"` model validators; it returns the validated record or the
first `ValueError`. The `match_uid` computed field is evaluated lazily on
serialization in the source, not at construction, so it is not part of
construction. Dates/datetimes are modelled as integers (see file header).
-/

inductive MatchStatus where
  | completed | retired | walkover
deriving DecidableEq, Repr

/-- `ResultsRecord` fields (one record per completed match). -/
structure ResultsRecord where
  tournament_id : Int
  year : Int
  match_date : Int
  tournament_day : Int
  round : Round
  court_name : Option String
  is_doubles : Bool
  match_status : MatchStatus
  duration_seconds : Option Int := none
  score : String
  w_set1 : Option Int := none
  l_set1 : Option Int := none
  tb_set1 : Option Int := none
  w_set2 : Option Int := none
  l_set2 : Option Int := none
  tb_set2 : Option Int := none
  w_set3 : Option Int := none
  l_set3 : Option Int := none
  tb_set3 : Option Int := none
  w_set4 : Option Int := none
  l_set4 : Option Int := none
  tb_set4 : Option Int := none
  w_set5 : Option Int := none
  l_set5 : Option Int := none
  tb_set5 : Option Int := none
  winner_id : String
  winner_name : String
  winner_seed : Option Int := none
  winner_entry : Option String := none
  winner_partner_id : Option String := none
  winner_partner_name : Option String := none
  loser_id : String
  loser_name : String
  loser_seed : Option Int := none
  loser_entry : Option String := none
  loser_partner_id : Option String := none
  loser_partner_name : Option String := none
  match_code : Option String := none
  umpire : Option String := none
deriving DecidableEq, Repr

/-- The `_uppercase_ids` `mode="before"` field validator. -/
def resultsUppercaseIds (r : ResultsRecord) : ResultsRecord :=
  { r with
    winner_id := pyUpper r.winner_id
    loser_id := pyUpper r.loser_id
    winner_partner_id := r.winner_partner_id.map pyUpper
    loser_partner_id := r.loser_partner_id.map pyUpper }

/-- The `_correct_player_ids` model validator (mutates the four ID fields). -/
def resultsCorrectIds (r : ResultsRecord) : ResultsRecord :=
  { r with
    winner_id := correct_player_id r.winner_id r.tournament_id r.year
    loser_id := correct_player_id r.loser_id r.tournament_id r.year
    winner_partner_id :=
      r.winner_partner_id.map (fun v => correct_player_id v r.tournament_id r.year)
    loser_partner_id :=
      r.loser_partner_id.map (fun v => correct_player_id v r.tournament_id r.year) }

/-- The `_validate_doubles_partners` model validator of `ResultsRecord`. -/
def resultsValidateDoublesPartners (r : ResultsRecord) : Except String Unit :=
  if r.is_doubles then
    if r.winner_partner_id.isNone then
      Except.error "Doubles match must have winner_partner_id"
    else if r.loser_partner_id.isNone then
      Except.error "Doubles match must have loser_partner_id"
    else Except.ok ()
  else
    if r.winner_partner_id.isSome || r.winner_partner_name.isSome ||
        r.loser_partner_id.isSome || r.loser_partner_name.isSome then
      Except.error "Singles match must not have partner fields"
    else Except.ok ()

/-- `w_setN` by set number (1-5). -/
def ResultsRecord.wSet (r : ResultsRecord) : Nat → Option Int
  | 1 => r.w_set1
  | 2 => r.w_set2
  | 3 => r.w_set3
  | 4 => r.w_set4
  | 5 => r.w_set5
  | _ => none

/-- `l_setN` by set number (1-5). -/
def ResultsRecord.lSet (r : ResultsRecord) : Nat → Option Int
  | 1 => r.l_set1
  | 2 => r.l_set2
  | 3 => r.l_set3
  | 4 => r.l_set4
  | 5 => r.l_set5
  | _ => none

/-- `tb_setN` by set number (1-5). -/
def ResultsRecord.tbSet (r : ResultsRecord) : Nat → Option Int
  | 1 => r.tb_set1
  | 2 => r.tb_set2
  | 3 => r.tb_set3
  | 4 => r.tb_set4
  | 5 => r.tb_set5
  | _ => none

/-- `any(getattr(self, f) is not None for (w, l, tb) in _SET_FIELDS ...)`. -/
def anySetField (r : ResultsRecord) : Bool :=
  [1, 2, 3, 4, 5].any (fun i =>
    (r.wSet i).isSome || (r.lSet i).isSome || (r.tbSet i).isSome)

/-- The `_validate_walkover` model validator. -/
def resultsValidateWalkover (r : ResultsRecord) : Except String Unit :=
  if r.match_status = .walkover then
    if r.duration_seconds.isSome then
      Except.error "Walkover must not have duration_seconds"
    else if r.score ≠ "" then
      Except.error "Walkover must have empty score string"
    else if anySetField r then
      Except.error "Walkover must not have set scores"
    else Except.ok ()
  else Except.ok ()

/-- The loop body of `_validate_sets_consistent`: iterate `_SET_FIELDS`;
a `w`/`l` presence mismatch raises; at the first fully absent set, raise
if any LATER `w` field is present, then `break` (the later sets' own
`w`/`l` pair checks are skipped). -/
def setsLoop (r : ResultsRecord) : List Nat → Except String Unit
  | [] => Except.ok ()
  | i :: rest =>
    if (r.wSet i).isNone != (r.lSet i).isNone then
      Except.error ("Set " ++ toString i ++ ": w and l must both be present or absent")
    else if (r.wSet i).isNone then
      if rest.any (fun j => (r.wSet j).isSome) then
        Except.error ("Set gap: set " ++ toString i ++ " is absent but later set is present")
      else Except.ok ()
    else setsLoop r rest

/-- The `_validate_sets_consistent` model validator. -/
def resultsValidateSetsConsistent (r : ResultsRecord) : Except String Unit :=
  setsLoop r [1, 2, 3, 4, 5]

/-- `ResultsRecord(**kwargs)`: field-level normalization then the model
validators in declaration order. -/
def mkResultsRecord (r : ResultsRecord) : Except String ResultsRecord := do
  let r1 := resultsCorrectIds (resultsUppercaseIds r)
  resultsValidateDoublesPartners r1
  resultsValidateWalkover r1
  resultsValidateSetsConsistent r1
  pure r1

/-! ## Walkover and set-consistency properties of `ResultsRecord` -/

theorem exceptBindOk {α β : Type} (a : α) (f : α → Except String β) :
    (Except.ok a >>= f) = f a := rfl

theorem exceptBindError {α β : Type} (e : String) (f : α → Except String β) :
    ((Except.error e : Except String α) >>= f) = Except.error e := rfl

/-- Normalization (uppercasing + ID correction) touches only the four ID
fields, so the walkover validator computes identically on the normalized
record. -/
theorem validateWalkover_norm (r : ResultsRecord) :
    resultsValidateWalkover (resultsCorrectIds (resultsUppercaseIds r)) =
      resultsValidateWalkover r := rfl

theorem validateSets_norm (r : ResultsRecord) :
    resultsValidateSetsConsistent (resultsCorrectIds (resultsUppercaseIds r)) =
      resultsValidateSetsConsistent r := rfl

theorem norm_winner_partner_isSome (r : ResultsRecord) :
    (resultsCorrectIds (resultsUppercaseIds r)).winner_partner_id.isSome =
      r.winner_partner_id.isSome := by
  cases h : r.winner_partner_id <;>
    simp [resultsCorrectIds, resultsUppercaseIds, h]

theorem norm_loser_partner_isSome (r : ResultsRecord) :
    (resultsCorrectIds (resultsUppercaseIds r)).loser_partner_id.isSome =
      r.loser_partner_id.isSome := by
  cases h : r.loser_partner_id <;>
    simp [resultsCorrectIds, resultsUppercaseIds, h]

theorem walkover_not_ok (r : ResultsRecord) (hst : r.match_status = .walkover)
    (hbad : r.duration_seconds.isSome = true ∨ r.score ≠ "" ∨ anySetField r = true) :
    ∀ u, resultsValidateWalkover r ≠ Except.ok u := by
  intro u hw
  unfold resultsValidateWalkover at hw
  rw [if_pos hst] at hw
  split at hw
  · exact absurd hw (by simp)
  · split at hw
    · exact absurd hw (by simp)
    · split at hw
      · exact absurd hw (by simp)
      · next hd hs ha =>
        rcases hbad with hb | hb | hb
        · exact hd hb
        · exact hs hb
        · exact ha hb

/-- C5: a walkover `ResultsRecord` with a non-null duration, a non-empty
score string, or any non-null set-score field is rejected at construction;
a walkover with all of those null/empty (and a well-formed partner
configuration) constructs successfully. -/
theorem results_walkover_invariants :
    (∀ r : ResultsRecord, r.match_status = .walkover →
      (r.duration_seconds.isSome = true ∨ r.score ≠ "" ∨ anySetField r = true) →
      (mkResultsRecord r).isOk = false) ∧
    (∀ r : ResultsRecord, r.match_status = .walkover →
      r.duration_seconds = none → r.score = "" →
      r.w_set1 = none → r.l_set1 = none → r.tb_set1 = none →
      r.w_set2 = none → r.l_set2 = none → r.tb_set2 = none →
      r.w_set3 = none → r.l_set3 = none → r.tb_set3 = none →
      r.w_set4 = none → r.l_set4 = none → r.tb_set4 = none →
      r.w_set5 = none → r.l_set5 = none → r.tb_set5 = none →
      (r.is_doubles = true → r.winner_partner_id.isSome = true ∧
        r.loser_partner_id.isSome = true) →
      (r.is_doubles = false → r.winner_partner_id = none ∧ r.winner_partner_name = none ∧
        r.loser_partner_id = none ∧ r.loser_partner_name = none) →
      mkResultsRecord r = Except.ok (resultsCorrectIds (resultsUppercaseIds r))) := by
  constructor
  · intro r hst hbad
    simp only [mkResultsRecord]
    cases h1 : resultsValidateDoublesPartners (resultsCorrectIds (resultsUppercaseIds r)) with
    | error e => rfl
    | ok u =>
      cases u
      rw [validateWalkover_norm]
      cases hw : resultsValidateWalkover r with
      | error e => rfl
      | ok u => exact absurd hw (walkover_not_ok r hst hbad u)
  · intro r hst hdur hsc hw1 hl1 htb1 hw2 hl2 htb2 hw3 hl3 htb3 hw4 hl4 htb4
      hw5 hl5 htb5 hdbl hsgl
    have hany : anySetField r = false := by
      simp [anySetField, ResultsRecord.wSet, ResultsRecord.lSet, ResultsRecord.tbSet,
        hw1, hl1, htb1, hw2, hl2, htb2, hw3, hl3, htb3, hw4, hl4, htb4, hw5, hl5, htb5]
    have hdb : (resultsCorrectIds (resultsUppercaseIds r)).is_doubles = r.is_doubles := rfl
    have hD : resultsValidateDoublesPartners (resultsCorrectIds (resultsUppercaseIds r)) =
        Except.ok () := by
      cases hdbv : r.is_doubles with
      | true =>
        obtain ⟨hwp, hlp⟩ := hdbl hdbv
        have hid : (resultsCorrectIds (resultsUppercaseIds r)).is_doubles = true :=
          hdb.trans hdbv
        have hwp1 : (resultsCorrectIds (resultsUppercaseIds r)).winner_partner_id.isNone
            = false := by
          have hs := (norm_winner_partner_isSome r).trans hwp
          cases hx : (resultsCorrectIds (resultsUppercaseIds r)).winner_partner_id with
          | none => rw [hx] at hs; exact absurd hs (by simp)
          | some v => rfl
        have hlp1 : (resultsCorrectIds (resultsUppercaseIds r)).loser_partner_id.isNone
            = false := by
          have hs := (norm_loser_partner_isSome r).trans hlp
          cases hx : (resultsCorrectIds (resultsUppercaseIds r)).loser_partner_id with
          | none => rw [hx] at hs; exact absurd hs (by simp)
          | some v => rfl
        simp [resultsValidateDoublesPartners, hid, hwp1, hlp1]
      | false =>
        obtain ⟨h1, h2, h3, h4⟩ := hsgl hdbv
        have hid : (resultsCorrectIds (resultsUppercaseIds r)).is_doubles = false :=
          hdb.trans hdbv
        have e1 : (resultsCorrectIds (resultsUppercaseIds r)).winner_partner_id = none := by
          simp [resultsCorrectIds, resultsUppercaseIds, h1]
        have e2 : (resultsCorrectIds (resultsUppercaseIds r)).winner_partner_name = none := h2
        have e3 : (resultsCorrectIds (resultsUppercaseIds r)).loser_partner_id = none := by
          simp [resultsCorrectIds, resultsUppercaseIds, h3]
        have e4 : (resultsCorrectIds (resultsUppercaseIds r)).loser_partner_name = none := h4
        simp [resultsValidateDoublesPartners, hid, e1, e2, e3, e4]
    have hW : resultsValidateWalkover r = Except.ok () := by
      simp [resultsValidateWalkover, hst, hdur, hsc, hany]
    have hS : resultsValidateSetsConsistent r = Except.ok () := by
      simp [resultsValidateSetsConsistent, setsLoop, ResultsRecord.wSet, ResultsRecord.lSet,
        hw1, hl1, hw2, hw3, hw4, hw5]
    simp only [mkResultsRecord]
    rw [hD, exceptBindOk, validateWalkover_norm, hW, exceptBindOk, validateSets_norm, hS,
      exceptBindOk]
    rfl

/-- A well-formed walkover record (mirrors the repository's own test input). -/
def walkoverOkRecord : ResultsRecord :=
  { tournament_id := 375, year := 2026, match_date := 0, tournament_day := 1,
    round := .QF, court_name := some "Court 1", is_doubles := false,
    match_status := .walkover, duration_seconds := none, score := "",
    winner_id := "AB12", winner_name := "A. Winner",
    loser_id := "CD34", loser_name := "C. Loser" }

/-- A walkover record carrying a duration (must be rejected). -/
def walkoverBadRecord : ResultsRecord :=
  { walkoverOkRecord with duration_seconds := some 5400 }

/-- Applies C5's theorem at concrete records: a walkover with a duration is
rejected; a clean walkover constructs. -/
theorem results_walkover_invariants_witness :
    (mkResultsRecord walkoverBadRecord).isOk = false ∧
    mkResultsRecord walkoverOkRecord =
      Except.ok (resultsCorrectIds (resultsUppercaseIds walkoverOkRecord)) :=
  ⟨results_walkover_invariants.1 walkoverBadRecord rfl (Or.inl (by decide)),
    results_walkover_invariants.2 walkoverOkRecord rfl rfl rfl rfl rfl rfl rfl rfl rfl
      rfl rfl rfl rfl rfl rfl rfl rfl rfl
      (fun h => by cases h) (fun _ => ⟨rfl, rfl, rfl, rfl⟩)⟩

/-- A candidate record whose `l_set2` is populated while `w_set2` (and all of
set 1) are absent. The `_validate_sets_consistent` loop sees set 1 fully
absent, checks only the later `w_*` fields for the gap rule, and `break`s —
so this record is accepted even though set 2 violates the
both-present-or-both-absent rule. -/
def setGapEscapeRecord : ResultsRecord :=
  { tournament_id := 375, year := 2026, match_date := 0, tournament_day := 1,
    round := .QF, court_name := some "Court 1", is_doubles := false,
    match_status := .completed, duration_seconds := some 5400, score := "6-4 7-6(5)",
    l_set2 := some 4,
    winner_id := "AB12", winner_name := "A. Winner",
    loser_id := "CD34", loser_name := "C. Loser" }

/-- C6: the code accepts a record with `l_set2` present and `w_set2` absent
(construction succeeds), contradicting the documented invariant that each
set's winner and loser scores are both present or both absent and that no
later set may be present after an absent one. -/
theorem results_set_gap_escape :
    (mkResultsRecord setGapEscapeRecord).isOk = true ∧
    setGapEscapeRecord.w_set2 = none ∧
    setGapEscapeRecord.l_set2 = some 4 := by
  refine ⟨?_, rfl, rfl⟩
  decide

/-- `StagedScheduleRecord` fields (one row per match in a single snapshot). -/
structure StagedScheduleRecord where
  snapshot_datetime : Int
  tournament_id : Int
  year : Int
  match_date_str : String
  start_time_str : String
  time_suffix : String
  tournament_day : Int
  court_name : Option String
  court_match_num : Int
  round_text : String
  is_doubles : Bool
  p1_id : Option String := none
  p1_name : Option String := none
  p1_seed : Option Int := none
  p1_entry : Option String := none
  p1_partner_id : Option String := none
  p1_partner_name : Option String := none
  p2_id : Option String := none
  p2_name : Option String := none
  p2_seed : Option Int := none
  p2_entry : Option String := none
  p2_partner_id : Option String := none
  p2_partner_name : Option String := none
deriving DecidableEq, Repr

def stagedUppercaseIds (r : StagedScheduleRecord) : StagedScheduleRecord :=
  { r with
    p1_id := r.p1_id.map pyUpper
    p2_id := r.p2_id.map pyUpper
    p1_partner_id := r.p1_partner_id.map pyUpper
    p2_partner_id := r.p2_partner_id.map pyUpper }

def stagedCorrectIds (r : StagedScheduleRecord) : StagedScheduleRecord :=
  { r with
    p1_id := r.p1_id.map (fun v => correct_player_id v r.tournament_id r.year)
    p2_id := r.p2_id.map (fun v => correct_player_id v r.tournament_id r.year)
    p1_partner_id := r.p1_partner_id.map (fun v => correct_player_id v r.tournament_id r.year)
    p2_partner_id := r.p2_partner_id.map (fun v => correct_player_id v r.tournament_id r.year) }

/-- `StagedScheduleRecord._validate_doubles_partners`: in a doubles match each
NAMED side must carry a partner ID (`if self.p1_id is not None and
self.p1_partner_id is None: raise`); in a singles match no partner field may
be populated. -/
def stagedValidateDoublesPartners (r : StagedScheduleRecord) : Except String Unit :=
  if r.is_doubles then
    if r.p1_id.isSome && r.p1_partner_id.isNone then
      Except.error "Doubles match with p1_id must have p1_partner_id"
    else if r.p2_id.isSome && r.p2_partner_id.isNone then
      Except.error "Doubles match with p2_id must have p2_partner_id"
    else Except.ok ()
  else
    if r.p1_partner_id.isSome || r.p1_partner_name.isSome ||
        r.p2_partner_id.isSome || r.p2_partner_name.isSome then
      Except.error "Singles match must not have partner fields"
    else Except.ok ()

def mkStagedScheduleRecord (r : StagedScheduleRecord) : Except String StagedScheduleRecord := do
  let r1 := stagedCorrectIds (stagedUppercaseIds r)
  stagedValidateDoublesPartners r1
  pure r1

/-- `ScheduleRecord` fields (one row per consolidated match). -/
structure ScheduleRecord where
  tournament_id : Int
  year : Int
  match_date : Int
  start_time_utc : Option Int := none
  time_estimated : Bool
  tournament_day : Int
  court_name : Option String
  court_match_num : Int
  round : Round
  is_doubles : Bool
  p1_id : String
  p1_name : String
  p1_seed : Option Int := none
  p1_entry : Option String := none
  p1_partner_id : Option String := none
  p1_partner_name : Option String := none
  p2_id : String
  p2_name : String
  p2_seed : Option Int := none
  p2_entry : Option String := none
  p2_partner_id : Option String := none
  p2_partner_name : Option String := none
deriving DecidableEq, Repr

def scheduleUppercaseIds (r : ScheduleRecord) : ScheduleRecord :=
  { r with
    p1_id := pyUpper r.p1_id
    p2_id := pyUpper r.p2_id
    p1_partner_id := r.p1_partner_id.map pyUpper
    p2_partner_id := r.p2_partner_id.map pyUpper }

def scheduleCorrectIds (r : ScheduleRecord) : ScheduleRecord :=
  { r with
    p1_id := correct_player_id r.p1_id r.tournament_id r.year
    p2_id := correct_player_id r.p2_id r.tournament_id r.year
    p1_partner_id := r.p1_partner_id.map (fun v => correct_player_id v r.tournament_id r.year)
    p2_partner_id := r.p2_partner_id.map (fun v => correct_player_id v r.tournament_id r.year) }

/-- `ScheduleRecord._validate_time_estimated`. -/
def scheduleValidateTimeEstimated (r : ScheduleRecord) : Except String Unit :=
  if !r.time_estimated && r.start_time_utc.isNone then
    Except.error "start_time_utc is required when time_estimated is False"
  else Except.ok ()

/-- `ScheduleRecord._validate_doubles_partners` (both sides are mandatory in
the consolidated schema, so partner IDs are unconditionally required). -/
def scheduleValidateDoublesPartners (r : ScheduleRecord) : Except String Unit :=
  if r.is_doubles then
    if r.p1_partner_id.isNone then
      Except.error "Doubles match must have p1_partner_id"
    else if r.p2_partner_id.isNone then
      Except.error "Doubles match must have p2_partner_id"
    else Except.ok ()
  else
    if r.p1_partner_id.isSome || r.p1_partner_name.isSome ||
        r.p2_partner_id.isSome || r.p2_partner_name.isSome then
      Except.error "Singles match must not have partner fields"
    else Except.ok ()

def mkScheduleRecord (r : ScheduleRecord) : Except String ScheduleRecord := do
  let r1 := scheduleCorrectIds (scheduleUppercaseIds r)
  scheduleValidateTimeEstimated r1
  scheduleValidateDoublesPartners r1
  pure r1

/-- `MatchStatsRecord` identity/context fields. The ~40 optional service,
return and point counters of the source schema are plain typed fields with no
validator attached, so they are omitted from the embedding; the validators
below read only the fields present here. -/
structure MatchStatsRecord where
  tournament_id : Int
  year : Int
  match_code : String
  round : Round
  court_name : String
  is_doubles : Bool
  set_num : Int
  set_score : Option Int := none
  tiebreak_score : Option Int := none
  player_id : String
  player_name : String
  opponent_id : String
  opponent_name : String
  is_winner : Bool
  player_seed : Option Int := none
  player_entry : Option String := none
  opponent_seed : Option Int := none
  opponent_entry : Option String := none
  player_partner_id : Option String := none
  player_partner_name : Option String := none
  opponent_partner_id : Option String := none
  opponent_partner_name : Option String := none
deriving DecidableEq, Repr

def statsUppercaseIds (r : MatchStatsRecord) : MatchStatsRecord :=
  { r with
    player_id := pyUpper r.player_id
    opponent_id := pyUpper r.opponent_id
    player_partner_id := r.player_partner_id.map pyUpper
    opponent_partner_id := r.opponent_partner_id.map pyUpper }

def statsCorrectIds (r : MatchStatsRecord) : MatchStatsRecord :=
  { r with
    player_id := correct_player_id r.player_id r.tournament_id r.year
    opponent_id := correct_player_id r.opponent_id r.tournament_id r.year
    player_partner_id :=
      r.player_partner_id.map (fun v => correct_player_id v r.tournament_id r.year)
    opponent_partner_id :=
      r.opponent_partner_id.map (fun v => correct_player_id v r.tournament_id r.year) }

/-- `MatchStatsRecord._validate_doubles_partners`. -/
def statsValidateDoublesPartners (r : MatchStatsRecord) : Except String Unit :=
  if r.is_doubles then
    if r.player_partner_id.isNone then
      Except.error "Doubles match must have player_partner_id"
    else if r.opponent_partner_id.isNone then
      Except.error "Doubles match must have opponent_partner_id"
    else Except.ok ()
  else
    if r.player_partner_id.isSome || r.player_partner_name.isSome ||
        r.opponent_partner_id.isSome || r.opponent_partner_name.isSome then
      Except.error "Singles match must not have partner fields"
    else Except.ok ()

def mkMatchStatsRecord (r : MatchStatsRecord) : Except String MatchStatsRecord := do
  let r1 := statsCorrectIds (statsUppercaseIds r)
  statsValidateDoublesPartners r1
  pure r1

/-! ## Doubles/singles partner invariants across the four schemas -/

theorem staged_partner_not_ok_doubles (r : StagedScheduleRecord) (hd : r.is_doubles = true)
    (hbad : (r.p1_id.isSome = true ∧ r.p1_partner_id.isNone = true) ∨
      (r.p2_id.isSome = true ∧ r.p2_partner_id.isNone = true)) :
    ∀ u, stagedValidateDoublesPartners r ≠ Except.ok u := by
  intro u hv
  unfold stagedValidateDoublesPartners at hv
  rw [if_pos hd] at hv
  split at hv
  · exact absurd hv (by simp)
  · split at hv
    · exact absurd hv (by simp)
    · next h1 h2 =>
      rcases hbad with ⟨ha, hb⟩ | ⟨ha, hb⟩
      · exact h1 (by rw [ha, hb]; rfl)
      · exact h2 (by rw [ha, hb]; rfl)

theorem staged_partner_not_ok_singles (r : StagedScheduleRecord) (hd : r.is_doubles = false)
    (hbad : r.p1_partner_id.isSome = true ∨ r.p1_partner_name.isSome = true ∨
      r.p2_partner_id.isSome = true ∨ r.p2_partner_name.isSome = true) :
    ∀ u, stagedValidateDoublesPartners r ≠ Except.ok u := by
  intro u hv
  unfold stagedValidateDoublesPartners at hv
  rw [hd] at hv
  simp only [Bool.false_eq_true, if_false] at hv
  split at hv
  · exact absurd hv (by simp)
  · next hcond =>
    rcases hbad with hx | hx | hx | hx <;> exact hcond (by simp [hx])

theorem schedule_partner_not_ok_doubles (r : ScheduleRecord) (hd : r.is_doubles = true)
    (hbad : r.p1_partner_id.isNone = true ∨ r.p2_partner_id.isNone = true) :
    ∀ u, scheduleValidateDoublesPartners r ≠ Except.ok u := by
  intro u hv
  unfold scheduleValidateDoublesPartners at hv
  rw [if_pos hd] at hv
  split at hv
  · exact absurd hv (by simp)
  · split at hv
    · exact absurd hv (by simp)
    · next h1 h2 =>
      rcases hbad with hb | hb
      · exact h1 (by rw [hb])
      · exact h2 (by rw [hb])

theorem schedule_partner_not_ok_singles (r : ScheduleRecord) (hd : r.is_doubles = false)
    (hbad : r.p1_partner_id.isSome = true ∨ r.p1_partner_name.isSome = true ∨
      r.p2_partner_id.isSome = true ∨ r.p2_partner_name.isSome = true) :
    ∀ u, scheduleValidateDoublesPartners r ≠ Except.ok u := by
  intro u hv
  unfold scheduleValidateDoublesPartners at hv
  rw [hd] at hv
  simp only [Bool.false_eq_true, if_false] at hv
  split at hv
  · exact absurd hv (by simp)
  · next hcond =>
    rcases hbad with hx | hx | hx | hx <;> exact hcond (by simp [hx])

theorem results_partner_not_ok_doubles (r : ResultsRecord) (hd : r.is_doubles = true)
    (hbad : r.winner_partner_id.isNone = true ∨ r.loser_partner_id.isNone = true) :
    ∀ u, resultsValidateDoublesPartners r ≠ Except.ok u := by
  intro u hv
  unfold resultsValidateDoublesPartners at hv
  rw [if_pos hd] at hv
  split at hv
  · exact absurd hv (by simp)
  · split at hv
    · exact absurd hv (by simp)
    · next h1 h2 =>
      rcases hbad with hb | hb
      · exact h1 (by rw [hb])
      · exact h2 (by rw [hb])

theorem results_partner_not_ok_singles (r : ResultsRecord) (hd : r.is_doubles = false)
    (hbad : r.winner_partner_id.isSome = true ∨ r.winner_partner_name.isSome = true ∨
      r.loser_partner_id.isSome = true ∨ r.loser_partner_name.isSome = true) :
    ∀ u, resultsValidateDoublesPartners r ≠ Except.ok u := by
  intro u hv
  unfold resultsValidateDoublesPartners at hv
  rw [hd] at hv
  simp only [Bool.false_eq_true, if_false] at hv
  split at hv
  · exact absurd hv (by simp)
  · next hcond =>
    rcases hbad with hx | hx | hx | hx <;> exact hcond (by simp [hx])

theorem stats_partner_not_ok_doubles (r : MatchStatsRecord) (hd : r.is_doubles = true)
    (hbad : r.player_partner_id.isNone = true ∨ r.opponent_partner_id.isNone = true) :
    ∀ u, statsValidateDoublesPartners r ≠ Except.ok u := by
  intro u hv
  unfold statsValidateDoublesPartners at hv
  rw [if_pos hd] at hv
  split at hv
  · exact absurd hv (by simp)
  · split at hv
    · exact absurd hv (by simp)
    · next h1 h2 =>
      rcases hbad with hb | hb
      · exact h1 (by rw [hb])
      · exact h2 (by rw [hb])

theorem stats_partner_not_ok_singles (r : MatchStatsRecord) (hd : r.is_doubles = false)
    (hbad : r.player_partner_id.isSome = true ∨ r.player_partner_name.isSome = true ∨
      r.opponent_partner_id.isSome = true ∨ r.opponent_partner_name.isSome = true) :
    ∀ u, statsValidateDoublesPartners r ≠ Except.ok u := by
  intro u hv
  unfold statsValidateDoublesPartners at hv
  rw [hd] at hv
  simp only [Bool.false_eq_true, if_false] at hv
  split at hv
  · exact absurd hv (by simp)
  · next hcond =>
    rcases hbad with hx | hx | hx | hx <;> exact hcond (by simp [hx])

/-- A staged doubles row whose side 1 is still TBD (no player named): the
partner requirement is waived for that side, so construction succeeds even
though `p1_partner_id` is missing. -/
def stagedTbdDoublesRecord : StagedScheduleRecord :=
  { snapshot_datetime := 0, tournament_id := 375, year := 2026,
    match_date_str := "2026-02-06", start_time_str := "", time_suffix := "",
    tournament_day := 1, court_name := some "Court 1", court_match_num := 1,
    round_text := "R16", is_doubles := true,
    p2_id := some "CD34", p2_name := some "C. Opponent",
    p2_partner_id := some "GH78", p2_partner_name := some "G. Partner" }

/-- C7 (counterexample): a staged schedule record with `is_doubles = true`
and a missing `p1_partner_id` constructs successfully when side 1 has no
named player, so "any of the four schema types with is_doubles=true and a
missing partner ID raises" is false as stated. -/
theorem staged_tbd_doubles_counterexample :
    (mkStagedScheduleRecord stagedTbdDoublesRecord).isOk = true ∧
    stagedTbdDoublesRecord.is_doubles = true ∧
    stagedTbdDoublesRecord.p1_partner_id = none := by
  refine ⟨?_, rfl, rfl⟩
  decide

/-- C7 (amended): for the staged schedule schema the doubles-partner
requirement applies to each side with a named player (TBD sides exempt); for
the consolidated schedule, results and match-stats schemas a doubles record
with a missing partner ID is always rejected; and in all four schemas a
singles record with any non-null partner field is rejected. -/
theorem partner_invariants_amended :
    (∀ r : StagedScheduleRecord, r.is_doubles = true →
      ((r.p1_id.isSome = true ∧ r.p1_partner_id = none) ∨
        (r.p2_id.isSome = true ∧ r.p2_partner_id = none)) →
      (mkStagedScheduleRecord r).isOk = false) ∧
    (∀ r : StagedScheduleRecord, r.is_doubles = false →
      (r.p1_partner_id.isSome = true ∨ r.p1_partner_name.isSome = true ∨
        r.p2_partner_id.isSome = true ∨ r.p2_partner_name.isSome = true) →
      (mkStagedScheduleRecord r).isOk = false) ∧
    (∀ r : ScheduleRecord, r.is_doubles = true →
      (r.p1_partner_id = none ∨ r.p2_partner_id = none) →
      (mkScheduleRecord r).isOk = false) ∧
    (∀ r : ScheduleRecord, r.is_doubles = false →
      (r.p1_partner_id.isSome = true ∨ r.p1_partner_name.isSome = true ∨
        r.p2_partner_id.isSome = true ∨ r.p2_partner_name.isSome = true) →
      (mkScheduleRecord r).isOk = false) ∧
    (∀ r : ResultsRecord, r.is_doubles = true →
      (r.winner_partner_id = none ∨ r.loser_partner_id = none) →
      (mkResultsRecord r).isOk = false) ∧
    (∀ r : ResultsRecord, r.is_doubles = false →
      (r.winner_partner_id.isSome = true ∨ r.winner_partner_name.isSome = true ∨
        r.loser_partner_id.isSome = true ∨ r.loser_partner_name.isSome = true) →
      (mkResultsRecord r).isOk = false) ∧
    (∀ r : MatchStatsRecord, r.is_doubles = true →
      (r.player_partner_id = none ∨ r.opponent_partner_id = none) →
      (mkMatchStatsRecord r).isOk = false) ∧
    (∀ r : MatchStatsRecord, r.is_doubles = false →
      (r.player_partner_id.isSome = true ∨ r.player_partner_name.isSome = true ∨
        r.opponent_partner_id.isSome = true ∨ r.opponent_partner_name.isSome = true) →
      (mkMatchStatsRecord r).isOk = false) := by
  refine ⟨?_, ?_, ?_, ?_, ?_, ?_, ?_, ?_⟩
  · intro r hd hbad
    have hd1 : (stagedCorrectIds (stagedUppercaseIds r)).is_doubles = true := hd
    have hbad1 : ((stagedCorrectIds (stagedUppercaseIds r)).p1_id.isSome = true ∧
        (stagedCorrectIds (stagedUppercaseIds r)).p1_partner_id.isNone = true) ∨
        ((stagedCorrectIds (stagedUppercaseIds r)).p2_id.isSome = true ∧
        (stagedCorrectIds (stagedUppercaseIds r)).p2_partner_id.isNone = true) := by
      rcases hbad with ⟨ha, hb⟩ | ⟨ha, hb⟩
      · refine Or.inl ⟨?_, ?_⟩
        · cases hx : r.p1_id with
          | none => rw [hx] at ha; exact absurd ha (by simp)
          | some v => simp [stagedCorrectIds, stagedUppercaseIds, hx]
        · simp [stagedCorrectIds, stagedUppercaseIds, hb]
      · refine Or.inr ⟨?_, ?_⟩
        · cases hx : r.p2_id with
          | none => rw [hx] at ha; exact absurd ha (by simp)
          | some v => simp [stagedCorrectIds, stagedUppercaseIds, hx]
        · simp [stagedCorrectIds, stagedUppercaseIds, hb]
    simp only [mkStagedScheduleRecord]
    cases hv : stagedValidateDoublesPartners (stagedCorrectIds (stagedUppercaseIds r)) with
    | error e => rfl
    | ok u => exact absurd hv (staged_partner_not_ok_doubles _ hd1 hbad1 u)
  · intro r hd hbad
    have hd1 : (stagedCorrectIds (stagedUppercaseIds r)).is_doubles = false := hd
    have hbad1 : (stagedCorrectIds (stagedUppercaseIds r)).p1_partner_id.isSome = true ∨
        (stagedCorrectIds (stagedUppercaseIds r)).p1_partner_name.isSome = true ∨
        (stagedCorrectIds (stagedUppercaseIds r)).p2_partner_id.isSome = true ∨
        (stagedCorrectIds (stagedUppercaseIds r)).p2_partner_name.isSome = true := by
      rcases hbad with hx | hx | hx | hx
      · refine Or.inl ?_
        cases hy : r.p1_partner_id with
        | none => rw [hy] at hx; exact absurd hx (by simp)
        | some v => simp [stagedCorrectIds, stagedUppercaseIds, hy]
      · exact Or.inr (Or.inl hx)
      · refine Or.inr (Or.inr (Or.inl ?_))
        cases hy : r.p2_partner_id with
        | none => rw [hy] at hx; exact absurd hx (by simp)
        | some v => simp [stagedCorrectIds, stagedUppercaseIds, hy]
      · exact Or.inr (Or.inr (Or.inr hx))
    simp only [mkStagedScheduleRecord]
    cases hv : stagedValidateDoublesPartners (stagedCorrectIds (stagedUppercaseIds r)) with
    | error e => rfl
    | ok u => exact absurd hv (staged_partner_not_ok_singles _ hd1 hbad1 u)
  · intro r hd hbad
    have hd1 : (scheduleCorrectIds (scheduleUppercaseIds r)).is_doubles = true := hd
    have hbad1 : (scheduleCorrectIds (scheduleUppercaseIds r)).p1_partner_id.isNone = true ∨
        (scheduleCorrectIds (scheduleUppercaseIds r)).p2_partner_id.isNone = true := by
      rcases hbad with hb | hb
      · exact Or.inl (by simp [scheduleCorrectIds, scheduleUppercaseIds, hb])
      · exact Or.inr (by simp [scheduleCorrectIds, scheduleUppercaseIds, hb])
    simp only [mkScheduleRecord]
    cases h1 : scheduleValidateTimeEstimated (scheduleCorrectIds (scheduleUppercaseIds r)) with
    | error e => rfl
    | ok u =>
      cases u
      cases hv : scheduleValidateDoublesPartners (scheduleCorrectIds (scheduleUppercaseIds r)) with
      | error e => rfl
      | ok u => exact absurd hv (schedule_partner_not_ok_doubles _ hd1 hbad1 u)
  · intro r hd hbad
    have hd1 : (scheduleCorrectIds (scheduleUppercaseIds r)).is_doubles = false := hd
    have hbad1 : (scheduleCorrectIds (scheduleUppercaseIds r)).p1_partner_id.isSome = true ∨
        (scheduleCorrectIds (scheduleUppercaseIds r)).p1_partner_name.isSome = true ∨
        (scheduleCorrectIds (scheduleUppercaseIds r)).p2_partner_id.isSome = true ∨
        (scheduleCorrectIds (scheduleUppercaseIds r)).p2_partner_name.isSome = true := by
      rcases hbad with hx | hx | hx | hx
      · refine Or.inl ?_
        cases hy : r.p1_partner_id with
        | none => rw [hy] at hx; exact absurd hx (by simp)
        | some v => simp [scheduleCorrectIds, scheduleUppercaseIds, hy]
      · exact Or.inr (Or.inl hx)
      · refine Or.inr (Or.inr (Or.inl ?_))
        cases hy : r.p2_partner_id with
        | none => rw [hy] at hx; exact absurd hx (by simp)
        | some v => simp [scheduleCorrectIds, scheduleUppercaseIds, hy]
      · exact Or.inr (Or.inr (Or.inr hx))
    simp only [mkScheduleRecord]
    cases h1 : scheduleValidateTimeEstimated (scheduleCorrectIds (scheduleUppercaseIds r)) with
    | error e => rfl
    | ok u =>
      cases u
      cases hv : scheduleValidateDoublesPartners (scheduleCorrectIds (scheduleUppercaseIds r)) with
      | error e => rfl
      | ok u => exact absurd hv (schedule_partner_not_ok_singles _ hd1 hbad1 u)
  · intro r hd hbad
    have hd1 : (resultsCorrectIds (resultsUppercaseIds r)).is_doubles = true := hd
    have hbad1 : (resultsCorrectIds (resultsUppercaseIds r)).winner_partner_id.isNone = true ∨
        (resultsCorrectIds (resultsUppercaseIds r)).loser_partner_id.isNone = true := by
      rcases hbad with hb | hb
      · exact Or.inl (by simp [resultsCorrectIds, resultsUppercaseIds, hb])
      · exact Or.inr (by simp [resultsCorrectIds, resultsUppercaseIds, hb])
    simp only [mkResultsRecord]
    cases hv : resultsValidateDoublesPartners (resultsCorrectIds (resultsUppercaseIds r)) with
    | error e => rfl
    | ok u => exact absurd hv (results_partner_not_ok_doubles _ hd1 hbad1 u)
  · intro r hd hbad
    have hd1 : (resultsCorrectIds (resultsUppercaseIds r)).is_doubles = false := hd
    have hbad1 : (resultsCorrectIds (resultsUppercaseIds r)).winner_partner_id.isSome = true ∨
        (resultsCorrectIds (resultsUppercaseIds r)).winner_partner_name.isSome = true ∨
        (resultsCorrectIds (resultsUppercaseIds r)).loser_partner_id.isSome = true ∨
        (resultsCorrectIds (resultsUppercaseIds r)).loser_partner_name.isSome = true := by
      rcases hbad with hx | hx | hx | hx
      · refine Or.inl ?_
        cases hy : r.winner_partner_id with
        | none => rw [hy] at hx; exact absurd hx (by simp)
        | some v => simp [resultsCorrectIds, resultsUppercaseIds, hy]
      · exact Or.inr (Or.inl hx)
      · refine Or.inr (Or.inr (Or.inl ?_))
        cases hy : r.loser_partner_id with
        | none => rw [hy] at hx; exact absurd hx (by simp)
        | some v => simp [resultsCorrectIds, resultsUppercaseIds, hy]
      · exact Or.inr (Or.inr (Or.inr hx))
    simp only [mkResultsRecord]
    cases hv : resultsValidateDoublesPartners (resultsCorrectIds (resultsUppercaseIds r)) with
    | error e => rfl
    | ok u => exact absurd hv (results_partner_not_ok_singles _ hd1 hbad1 u)
  · intro r hd hbad
    have hd1 : (statsCorrectIds (statsUppercaseIds r)).is_doubles = true := hd
    have hbad1 : (statsCorrectIds (statsUppercaseIds r)).player_partner_id.isNone = true ∨
        (statsCorrectIds (statsUppercaseIds r)).opponent_partner_id.isNone = true := by
      rcases hbad with hb | hb
      · exact Or.inl (by simp [statsCorrectIds, statsUppercaseIds, hb])
      · exact Or.inr (by simp [statsCorrectIds, statsUppercaseIds, hb])
    simp only [mkMatchStatsRecord]
    cases hv : statsValidateDoublesPartners (statsCorrectIds (statsUppercaseIds r)) with
    | error e => rfl
    | ok u => exact absurd hv (stats_partner_not_ok_doubles _ hd1 hbad1 u)
  · intro r hd hbad
    have hd1 : (statsCorrectIds (statsUppercaseIds r)).is_doubles = false := hd
    have hbad1 : (statsCorrectIds (statsUppercaseIds r)).player_partner_id.isSome = true ∨
        (statsCorrectIds (statsUppercaseIds r)).player_partner_name.isSome = true ∨
        (statsCorrectIds (statsUppercaseIds r)).opponent_partner_id.isSome = true ∨
        (statsCorrectIds (statsUppercaseIds r)).opponent_partner_name.isSome = true := by
      rcases hbad with hx | hx | hx | hx
      · refine Or.inl ?_
        cases hy : r.player_partner_id with
        | none => rw [hy] at hx; exact absurd hx (by simp)
        | some v => simp [statsCorrectIds, statsUppercaseIds, hy]
      · exact Or.inr (Or.inl hx)
      · refine Or.inr (Or.inr (Or.inl ?_))
        cases hy : r.opponent_partner_id with
        | none => rw [hy] at hx; exact absurd hx (by simp)
        | some v => simp [statsCorrectIds, statsUppercaseIds, hy]
      · exact Or.inr (Or.inr (Or.inr hx))
    simp only [mkMatchStatsRecord]
    cases hv : statsValidateDoublesPartners (statsCorrectIds (statsUppercaseIds r)) with
    | error e => rfl
    | ok u => exact absurd hv (stats_partner_not_ok_singles _ hd1 hbad1 u)

/-- A staged doubles row with a named side 1 but no partner for it. -/
def stagedNamedMissingPartner : StagedScheduleRecord :=
  { stagedTbdDoublesRecord with p1_id := some "AB12", p1_name := some "A. Player" }

/-- A consolidated doubles schedule row with both partner IDs missing. -/
def scheduleDoublesMissing : ScheduleRecord :=
  { tournament_id := 375, year := 2026, match_date := 0,
    start_time_utc := some 0, time_estimated := false, tournament_day := 1,
    court_name := some "Court 1", court_match_num := 1, round := .R16,
    is_doubles := true, p1_id := "AB12", p1_name := "A. Player",
    p2_id := "CD34", p2_name := "C. Opponent" }

/-- A singles results record carrying partner fields. -/
def resultsSinglesPartner : ResultsRecord :=
  { walkoverOkRecord with
    match_status := .completed, score := "6-4",
    duration_seconds := some 3600, w_set1 := some 6, l_set1 := some 4,
    winner_partner_id := some "EF56", winner_partner_name := some "E. Partner" }

/-- A doubles match-stats row with both partner IDs missing. -/
def statsDoublesMissing : MatchStatsRecord :=
  { tournament_id := 375, year := 2026, match_code := "ms001", round := .QF,
    court_name := "Court 1", is_doubles := true, set_num := 0,
    player_id := "AB12", player_name := "A. Player",
    opponent_id := "CD34", opponent_name := "C. Opponent", is_winner := true }

/-- Applies C7's amended theorem at one concrete record per schema. -/
theorem partner_invariants_amended_witness :
    (mkStagedScheduleRecord stagedNamedMissingPartner).isOk = false ∧
    (mkScheduleRecord scheduleDoublesMissing).isOk = false ∧
    (mkResultsRecord resultsSinglesPartner).isOk = false ∧
    (mkMatchStatsRecord statsDoublesMissing).isOk = false :=
  ⟨partner_invariants_amended.1 stagedNamedMissingPartner rfl (Or.inl ⟨rfl, rfl⟩),
    partner_invariants_amended.2.2.1 scheduleDoublesMissing rfl (Or.inl rfl),
    partner_invariants_amended.2.2.2.2.2.1 resultsSinglesPartner rfl (Or.inl rfl),
    partner_invariants_amended.2.2.2.2.2.2.1 statsDoublesMissing rfl (Or.inl rfl)⟩

/-! ## Match-stats consolidation: derived columns
(`MatchStatsTransformer._add_derived_columns`, atp/tournament/match_stats.py)

A staged match-stats dataframe row, restricted to the columns the derived
computation reads. The self-join on `(match_code, set_num,
opponent_id = player_id)` is modelled by `findOppRow`; the staging step
produces exactly one row per `(match_code, set_num, player_id)`, so the
polars left join attaches at most one opponent row.
-/

structure StatsRow where
  match_code : String
  set_num : Int
  player_id : String
  opponent_id : String
  set_score : Option Int := none
  tiebreak_score : Option Int := none
deriving DecidableEq, Repr

/-- A row of the combined table after `_add_derived_columns` (the two
`opp_*` join columns are dropped again by the source). -/
structure StatsDerivedRow where
  row : StatsRow
  sets_played : Option Int
  won_set : Option Bool
  tiebreak_points_won : Option Int
  tiebreak_points_played : Option Int
deriving DecidableEq, Repr

/-- The opponent's row for the same match and set (the self-join). -/
def findOppRow (rows : List StatsRow) (r : StatsRow) : Option StatsRow :=
  rows.find? (fun r2 => r2.match_code == r.match_code && r2.set_num == r.set_num &&
    r2.player_id == r.opponent_id)

/-- `pl.coalesce("tiebreak_score", "opp_tiebreak_score")`. -/
def coalesce2 (a b : Option Int) : Option Int :=
  match a with
  | some x => some x
  | none => b

/-- Maximum of a non-empty column (polars `max` over a group). -/
def listMaxInt : List Int → Option Int
  | [] => none
  | x :: xs => some (xs.foldl max x)

/-- `_add_derived_columns`: per row, `sets_played` is the max `set_num` of the
row's match; `won_set` compares the set scores of the self-joined pair (null
for the `set_num = 0` aggregate row or a null comparison); `winner_tb` is
`when(loser_tb < 6).then(7).otherwise(loser_tb + 2)` with polars null
propagation; `tiebreak_points_won` is the row's own tiebreak score when
present, else the winner count when the opponent has one, else null;
`tiebreak_points_played` is `loser_tb + winner_tb`, null when there was no
tiebreak. -/
def addDerivedColumns (rows : List StatsRow) : List StatsDerivedRow :=
  rows.map (fun r =>
    let opp := findOppRow rows r
    let opp_set_score := opp.bind (fun r2 => r2.set_score)
    let opp_tiebreak_score := opp.bind (fun r2 => r2.tiebreak_score)
    let loser_tb := coalesce2 r.tiebreak_score opp_tiebreak_score
    let winner_tb := loser_tb.map (fun l => if l < 6 then (7 : Int) else l + 2)
    { row := r
      sets_played := listMaxInt
        ((rows.filter (fun r2 => r2.match_code == r.match_code)).map (fun r2 => r2.set_num))
      won_set :=
        if r.set_num = 0 then none
        else
          match r.set_score, opp_set_score with
          | some a, some b => some (decide (b < a))
          | _, _ => none
      tiebreak_points_won :=
        match r.tiebreak_score with
        | some t => some t
        | none =>
          match opp_tiebreak_score with
          | some _ => winner_tb
          | none => none
      tiebreak_points_played :=
        match loser_tb, winner_tb with
        | some l, some w => some (l + w)
        | _, _ => none })

/-- C8: in every consolidated match-stats row, the derived tiebreak columns
follow extended-tiebreak scoring. With `l` the tiebreak loser's point count —
whichever of the row's own and the joined opponent's tiebreak score is
non-null — the winner's count is `7` when `l < 6` and `l + 2` otherwise,
`tiebreak_points_played` is their sum, and the row's `tiebreak_points_won`
is its own score when present (the loser's row) and the winner's count
otherwise; rows of a set with no tiebreak on either side have null in both
derived columns. -/
theorem stats_tiebreak_derived (rows : List StatsRow) (d : StatsDerivedRow)
    (hd : d ∈ addDerivedColumns rows) :
    (d.row.tiebreak_score = none →
      (findOppRow rows d.row).bind (fun r2 => r2.tiebreak_score) = none →
      d.tiebreak_points_won = none ∧ d.tiebreak_points_played = none) ∧
    (∀ l : Int,
      coalesce2 d.row.tiebreak_score
          ((findOppRow rows d.row).bind (fun r2 => r2.tiebreak_score)) = some l →
      d.tiebreak_points_played = some (l + (if l < 6 then 7 else l + 2)) ∧
      (d.row.tiebreak_score = some l → d.tiebreak_points_won = some l) ∧
      (d.row.tiebreak_score = none →
        d.tiebreak_points_won = some (if l < 6 then 7 else l + 2))) := by
  obtain ⟨r, hr, rfl⟩ := List.mem_map.mp hd
  constructor
  · intro h1 h2
    simp only at h1 h2 ⊢
    rw [h1, h2]
    exact ⟨rfl, rfl⟩
  · intro l hl
    simp only at hl ⊢
    cases ht : r.tiebreak_score with
    | some t =>
      rw [ht] at hl
      simp only [coalesce2] at hl
      injection hl with hl'
      subst hl'
      refine ⟨rfl, fun _ => rfl, fun h => Option.noConfusion h⟩
    | none =>
      rw [ht] at hl
      cases ho : (findOppRow rows r).bind (fun r2 => r2.tiebreak_score) with
      | some o =>
        rw [ho] at hl
        simp only [coalesce2] at hl
        injection hl with hl'
        subst hl'
        exact ⟨rfl, fun h => Option.noConfusion h, fun _ => rfl⟩
      | none =>
        rw [ho] at hl
        simp only [coalesce2] at hl
        exact Option.noConfusion hl

/-- The tiebreak winner's staged row: set 2 of "7-6(5)". -/
def demoWinnerRow : StatsRow :=
  { match_code := "ms001", set_num := 2, player_id := "AB12",
    opponent_id := "CD34", set_score := some 7, tiebreak_score := none }

/-- The tiebreak loser's staged row (carries the printed tiebreak score 5). -/
def demoLoserRow : StatsRow :=
  { match_code := "ms001", set_num := 2, player_id := "CD34",
    opponent_id := "AB12", set_score := some 6, tiebreak_score := some 5 }

/-- Two staged rows of set 2 of one match: the set went to a tiebreak the
loser took to 5 points ("7-6(5)"). -/
def demoStatsRows : List StatsRow := [demoWinnerRow, demoLoserRow]

/-- The tiebreak winner's derived row for `demoStatsRows`. -/
def demoDerivedWinner : StatsDerivedRow :=
  { row := demoWinnerRow, sets_played := some 2, won_set := some true,
    tiebreak_points_won := some 7, tiebreak_points_played := some 12 }

/-- Applies C8's theorem at the winner's row of the concrete tiebreak: loser
count 5 gives winner count 7 and 12 points played. -/
theorem stats_tiebreak_derived_witness :
    demoDerivedWinner.tiebreak_points_played = some 12 ∧
    demoDerivedWinner.tiebreak_points_won = some 7 :=
  ⟨((stats_tiebreak_derived demoStatsRows demoDerivedWinner (by decide)).2 5 (by decide)).1,
    ((stats_tiebreak_derived demoStatsRows demoDerivedWinner (by decide)).2 5
      (by decide)).2.2 rfl⟩

/-! ## Atomic file writes (`BaseJob.save_json` / `save_html` / `save_parquet`,
atp/base_job.py)

The file system is an association list mapping path strings to contents. The
three save methods share the same pattern: write to `path + ".tmp"`, then
atomically `tmp_path.replace(path)`; on any exception, `tmp_path.unlink()`
when it exists, and re-raise. `WriteOutcome` is the oracle saying where, if
anywhere, the write raises.
-/

abbrev FS := List (String × String)

def fsGet (fs : FS) (p : String) : Option String :=
  (fs.find? (fun e => e.1 == p)).map (fun e => e.2)

def fsRemove (fs : FS) (p : String) : FS :=
  fs.filter (fun e => !(e.1 == p))

def fsSet (fs : FS) (p v : String) : FS := (p, v) :: fsRemove fs p

/-- Where the `try` block raises, if anywhere:
`success` — no exception; `failOpen` — opening the temp file raised, nothing
written; `failPartial s` — the write raised after `s` reached the temp file;
`failRename` — `replace` raised with no effect (the rename is atomic). -/
inductive WriteOutcome where
  | success
  | failOpen
  | failPartial (written : String)
  | failRename
deriving DecidableEq, Repr

/-- The shared write-temp-then-rename body of `save_json`, `save_html` and
`save_parquet`, with `content` the fully serialized payload. Returns the
resulting file system and either the saved path or the re-raised
exception. -/
def atomicSave (fs : FS) (path content : String) (oc : WriteOutcome) :
    FS × Except String String :=
  let tmp_path := path ++ ".tmp"
  match oc with
  | .success =>
    let fs1 := fsSet fs tmp_path content
    let fs2 := fsSet (fsRemove fs1 tmp_path) path content
    (fs2, Except.ok path)
  | .failOpen =>
    let fs1 := fs
    (if (fsGet fs1 tmp_path).isSome then fsRemove fs1 tmp_path else fs1,
      Except.error "write failed")
  | .failPartial written =>
    let fs1 := fsSet fs tmp_path written
    (if (fsGet fs1 tmp_path).isSome then fsRemove fs1 tmp_path else fs1,
      Except.error "write failed")
  | .failRename =>
    let fs1 := fsSet fs tmp_path content
    (if (fsGet fs1 tmp_path).isSome then fsRemove fs1 tmp_path else fs1,
      Except.error "write failed")

def save_json (fs : FS) (path serialized : String) (oc : WriteOutcome) :
    FS × Except String String := atomicSave fs path serialized oc

def save_html (fs : FS) (path content : String) (oc : WriteOutcome) :
    FS × Except String String := atomicSave fs path content oc

def save_parquet (fs : FS) (path serialized : String) (oc : WriteOutcome) :
    FS × Except String String := atomicSave fs path serialized oc

theorem tmp_ne_path (path : String) : path ++ ".tmp" ≠ path := by
  intro h
  have hlen := congrArg String.length h
  rw [String.length_append] at hlen
  rw [show (".tmp" : String).length = 4 from rfl] at hlen
  omega

theorem fsGet_fsRemove_self (fs : FS) (p : String) : fsGet (fsRemove fs p) p = none := by
  induction fs with
  | nil => rfl
  | cons e rest ih =>
    cases he : (e.1 == p) with
    | true => simp [fsRemove, fsGet, he, ih]
    | false => simp [fsRemove, fsGet, he, ih]

theorem fsGet_fsRemove_ne (fs : FS) (p q : String) (h : q ≠ p) :
    fsGet (fsRemove fs p) q = fsGet fs q := by
  induction fs with
  | nil => rfl
  | cons e rest ih =>
    cases he : (e.1 == p) with
    | true =>
      have heq : e.1 = p := eq_of_beq he
      have hq : (e.1 == q) = false := by
        rw [heq]
        exact beq_false_of_ne (fun hc => h hc.symm)
      simpa [fsRemove, fsGet, he, hq] using ih
    | false =>
      cases hq : (e.1 == q) with
      | true => simp [fsRemove, fsGet, he, hq]
      | false => simpa [fsRemove, fsGet, he, hq] using ih

theorem fsGet_fsSet_self (fs : FS) (p v : String) : fsGet (fsSet fs p v) p = some v := by
  simp [fsSet, fsGet]

theorem fsGet_fsSet_ne (fs : FS) (p q v : String) (h : q ≠ p) :
    fsGet (fsSet fs p v) q = fsGet fs q := by
  have hq : ((p, v).1 == q) = false := beq_false_of_ne (fun hc => h hc.symm)
  unfold fsGet fsSet
  rw [List.find?_cons_of_neg _ (by simp [hq])]
  exact fsGet_fsRemove_ne fs p q h

/-- C10: every save operation writes to a temp file and atomically renames it
onto the target; when the write raises at any point, the temp file is
removed, the prior file at the target path (if any) is left unchanged, and
the exception propagates to the caller; on success the target holds the new
content and no temp file remains. `save_json`, `save_html` and
`save_parquet` all share this body. -/
theorem atomic_save_contract :
    (∀ (fs : FS) (path content : String) (oc : WriteOutcome),
      oc ≠ WriteOutcome.success →
      (atomicSave fs path content oc).2.isOk = false ∧
      fsGet (atomicSave fs path content oc).1 path = fsGet fs path ∧
      fsGet (atomicSave fs path content oc).1 (path ++ ".tmp") = none) ∧
    (∀ (fs : FS) (path content : String),
      (atomicSave fs path content WriteOutcome.success).2 = Except.ok path ∧
      fsGet (atomicSave fs path content WriteOutcome.success).1 path = some content ∧
      fsGet (atomicSave fs path content WriteOutcome.success).1 (path ++ ".tmp") = none) ∧
    save_json = atomicSave ∧ save_html = atomicSave ∧ save_parquet = atomicSave := by
  have hne : ∀ path : String, path ≠ path ++ ".tmp" :=
    fun path hc => tmp_ne_path path hc.symm
  refine ⟨?_, ?_, rfl, rfl, rfl⟩
  · intro fs path content oc hoc
    cases oc with
    | success => exact absurd rfl hoc
    | failOpen =>
      refine ⟨rfl, ?_, ?_⟩
      · simp only [atomicSave]
        split
        · exact fsGet_fsRemove_ne fs (path ++ ".tmp") path (hne path)
        · rfl
      · simp only [atomicSave]
        split
        · exact fsGet_fsRemove_self fs (path ++ ".tmp")
        · next hs =>
          cases hg : fsGet fs (path ++ ".tmp") with
          | none => rfl
          | some v =>
            rw [hg] at hs
            exact absurd rfl hs
    | failPartial written =>
      refine ⟨rfl, ?_, ?_⟩
      · simp only [atomicSave]
        rw [if_pos (by rw [fsGet_fsSet_self]; rfl)]
        rw [fsGet_fsRemove_ne _ _ _ (hne path)]
        exact fsGet_fsSet_ne fs (path ++ ".tmp") path written (hne path)
      · simp only [atomicSave]
        rw [if_pos (by rw [fsGet_fsSet_self]; rfl)]
        exact fsGet_fsRemove_self _ (path ++ ".tmp")
    | failRename =>
      refine ⟨rfl, ?_, ?_⟩
      · simp only [atomicSave]
        rw [if_pos (by rw [fsGet_fsSet_self]; rfl)]
        rw [fsGet_fsRemove_ne _ _ _ (hne path)]
        exact fsGet_fsSet_ne fs (path ++ ".tmp") path content (hne path)
      · simp only [atomicSave]
        rw [if_pos (by rw [fsGet_fsSet_self]; rfl)]
        exact fsGet_fsRemove_self _ (path ++ ".tmp")
  · intro fs path content
    refine ⟨rfl, ?_, ?_⟩
    · simp only [atomicSave]
      exact fsGet_fsSet_self _ path content
    · simp only [atomicSave]
      rw [fsGet_fsSet_ne _ _ _ _ (tmp_ne_path path)]
      exact fsGet_fsRemove_self _ (path ++ ".tmp")

/-- A file system holding a previously valid output. -/
def demoFS : FS := [("stage/results.parquet", "old-table")]

/-- Applies C10's theorem concretely: a write that fails halfway leaves the
prior file untouched and no temp file behind, and the error propagates; a
successful write installs the new content. -/
theorem atomic_save_contract_witness :
    (atomicSave demoFS "stage/results.parquet" "new-table"
      (WriteOutcome.failPartial "garbage")).2.isOk = false ∧
    fsGet (atomicSave demoFS "stage/results.parquet" "new-table"
      (WriteOutcome.failPartial "garbage")).1 "stage/results.parquet" = some "old-table" ∧
    fsGet (atomicSave demoFS "stage/results.parquet" "new-table"
      (WriteOutcome.failPartial "garbage")).1 ("stage/results.parquet" ++ ".tmp") = none ∧
    fsGet (atomicSave demoFS "stage/results.parquet" "new-table"
      WriteOutcome.success).1 "stage/results.parquet" = some "new-table" := by
  have h1 := atomic_save_contract.1 demoFS "stage/results.parquet" "new-table"
    (WriteOutcome.failPartial "garbage") (by decide)
  have h2 := atomic_save_contract.2.1 demoFS "stage/results.parquet" "new-table"
  exact ⟨h1.1, h1.2.1.trans (by decide), h1.2.2, h2.2.1⟩

/-! ## Schedule consolidation: deduplication by match UID
(`ScheduleTransformer._dedup_matches`, atp/tournament/schedule.py lines 295-314)

A staged dataframe row as consumed by the transformer, after the TBD filter
(both player IDs non-null). `rows_by_uid` is a Python dict in insertion
order with replace-in-place update, modelled by an association list.
-/

structure StagedRow where
  snapshot_datetime : Int
  tournament_id : Int
  year : Int
  match_date_str : String
  start_time_str : String
  time_suffix : String
  tournament_day : Int
  court_name : Option String
  court_match_num : Int
  round_text : String
  is_doubles : Bool
  p1_id : String
  p2_id : String
deriving DecidableEq, Repr

/-- `ScheduleTransformer._parse_round`: `Round[round_text]`, raising on an
unknown name. -/
def _parse_round (round_text : String) : Except String Round :=
  match Round.ofName round_text with
  | some r => Except.ok r
  | none => Except.error ("Unknown round_text " ++ round_text ++
      " in schedule. Add member to Round enum in atp/schemas.py.")

/-- The UID computed for one row inside the dedup loop. -/
def uidOfRow (row : StagedRow) : Except String String := do
  let round ← _parse_round row.round_text
  create_match_uid row.year row.tournament_id round row.p1_id row.p2_id row.is_doubles

def alistLookup (m : List (String × StagedRow)) (k : String) : Option StagedRow :=
  (m.find? (fun e => e.1 == k)).map (fun e => e.2)

/-- Python dict assignment to an existing key: the value is replaced in
place, the key keeps its position. -/
def alistUpdate (m : List (String × StagedRow)) (k : String) (v : StagedRow) :
    List (String × StagedRow) :=
  m.map (fun e => if e.1 == k then (k, v) else e)

/-- One iteration of the dedup loop. -/
def dedupStep (m : List (String × StagedRow)) (row : StagedRow) :
    Except String (List (String × StagedRow)) := do
  let uid ← uidOfRow row
  match alistLookup m uid with
  | none => pure (m ++ [(uid, row)])
  | some existing =>
    if existing.snapshot_datetime < row.snapshot_datetime then
      pure (alistUpdate m uid row)
    else
      pure m

def dedupAux : List (String × StagedRow) → List StagedRow →
    Except String (List (String × StagedRow))
  | m, [] => Except.ok m
  | m, row :: rest =>
    match dedupStep m row with
    | Except.error e => Except.error e
    | Except.ok m2 => dedupAux m2 rest

/-- `_dedup_matches`: fold the rows through `rows_by_uid`, then return
`list(rows_by_uid.values())`. -/
def _dedup_matches (rows : List StagedRow) : Except String (List StagedRow) :=
  (dedupAux [] rows).map (fun m => m.map Prod.snd)

theorem alistLookup_none {m : List (String × StagedRow)} {k : String}
    (h : alistLookup m k = none) : ∀ e ∈ m, e.1 ≠ k := by
  intro e he
  unfold alistLookup at h
  rw [Option.map_eq_none'] at h
  have := List.find?_eq_none.mp h e he
  exact fun hc => by rw [hc] at this; simp at this

theorem alistLookup_some {m : List (String × StagedRow)} {k : String} {v : StagedRow}
    (h : alistLookup m k = some v) : (k, v) ∈ m := by
  unfold alistLookup at h
  rw [Option.map_eq_some'] at h
  obtain ⟨e, he, hev⟩ := h
  have hmem := List.mem_of_find?_eq_some he
  have hk : e.1 = k := by
    have := List.find?_some he
    exact eq_of_beq this
  have : e = (k, v) := by
    cases e
    simp only at hk hev
    rw [hk, hev]
  rw [← this]
  exact hmem

theorem alistUpdate_map_fst (m : List (String × StagedRow)) (k : String) (v : StagedRow) :
    (alistUpdate m k v).map Prod.fst = m.map Prod.fst := by
  induction m with
  | nil => rfl
  | cons e rest ih =>
    simp only [alistUpdate, List.map_cons] at ih ⊢
    refine congrArg₂ _ ?_ ih
    by_cases he : (e.1 == k) = true
    · rw [if_pos he]
      exact (eq_of_beq he).symm
    · rw [if_neg he]

/-- Loop invariant of `_dedup_matches`: every dict entry's key is its row's
UID, the row comes from the processed prefix and dominates (by snapshot
timestamp) every processed row with the same UID; keys are distinct; and
every processed row's UID has an entry. -/
def DedupInv (processed : List StagedRow) (m : List (String × StagedRow)) : Prop :=
  (∀ e ∈ m, uidOfRow e.2 = Except.ok e.1 ∧ e.2 ∈ processed ∧
    ∀ r ∈ processed, uidOfRow r = Except.ok e.1 →
      r.snapshot_datetime ≤ e.2.snapshot_datetime) ∧
  (m.map Prod.fst).Nodup ∧
  (∀ r ∈ processed, ∃ e ∈ m, uidOfRow r = Except.ok e.1)

theorem dedupStep_inv {processed : List StagedRow} {m m2 : List (String × StagedRow)}
    {row : StagedRow} (hInv : DedupInv processed m) (h : dedupStep m row = Except.ok m2) :
    DedupInv (processed ++ [row]) m2 := by
  obtain ⟨hEnt, hKeys, hCov⟩ := hInv
  unfold dedupStep at h
  cases huid : uidOfRow row with
  | error e => rw [huid] at h; exact absurd h (by simp [Bind.bind, Except.bind])
  | ok uid =>
    rw [huid] at h
    simp only [Bind.bind, Except.bind] at h
    cases hlk : alistLookup m uid with
    | none =>
      rw [hlk] at h
      simp only [pure, Except.pure] at h
      cases h
      have hfresh : ∀ e ∈ m, e.1 ≠ uid := alistLookup_none hlk
      have hfreshRow : ∀ r ∈ processed, uidOfRow r ≠ Except.ok uid := by
        intro r hr hc
        obtain ⟨e, he, heq⟩ := hCov r hr
        rw [hc] at heq
        exact hfresh e he (by cases heq; rfl)
      refine ⟨?_, ?_, ?_⟩
      · intro e he
        rcases List.mem_append.mp he with he' | he'
        · obtain ⟨h1, h2, h3⟩ := hEnt e he'
          refine ⟨h1, List.mem_append_left _ h2, ?_⟩
          intro r hr hru
          rcases List.mem_append.mp hr with hr' | hr'
          · exact h3 r hr' hru
          · have : r = row := by simpa using hr'
            subst this
            rw [huid] at hru
            exact absurd (by cases hru; rfl) (hfresh e he')
        · have : e = (uid, row) := by simpa using he'
          subst this
          refine ⟨huid, List.mem_append_right _ (by simp), ?_⟩
          intro r hr hru
          rcases List.mem_append.mp hr with hr' | hr'
          · exact absurd hru (hfreshRow r hr')
          · have : r = row := by simpa using hr'
            subst this
            exact le_refl _
      · rw [List.map_append]
        rw [List.nodup_append]
        refine ⟨hKeys, by simp, ?_⟩
        intro a ha hb
        simp only [List.map_cons, List.map_nil, List.mem_cons, List.not_mem_nil,
          or_false] at hb
        subst hb
        obtain ⟨e, he, hea⟩ := List.mem_map.mp ha
        exact hfresh e he hea
      · intro r hr
        rcases List.mem_append.mp hr with hr' | hr'
        · obtain ⟨e, he, heq⟩ := hCov r hr'
          exact ⟨e, List.mem_append_left _ he, heq⟩
        · have hrr : r = row := by simpa using hr'
          refine ⟨(uid, row), List.mem_append_right _ (by simp), ?_⟩
          rw [hrr]
          exact huid
    | some existing =>
      rw [hlk] at h
      have hex : (uid, existing) ∈ m := alistLookup_some hlk
      have hexE := hEnt (uid, existing) hex
      have h2 : (if existing.snapshot_datetime < row.snapshot_datetime then
          (pure (alistUpdate m uid row) : Except String (List (String × StagedRow)))
          else pure m) = Except.ok m2 := h
      by_cases hts : existing.snapshot_datetime < row.snapshot_datetime
      · rw [if_pos hts] at h2
        simp only [pure, Except.pure] at h2
        cases h2
        refine ⟨?_, ?_, ?_⟩
        · intro e2 he2
          obtain ⟨e, he, hform⟩ := List.mem_map.mp he2
          by_cases hek : (e.1 == uid) = true
          · rw [if_pos hek] at hform
            subst hform
            refine ⟨huid, List.mem_append_right _ (by simp), ?_⟩
            intro r hr hru
            rcases List.mem_append.mp hr with hr' | hr'
            · have hre : r.snapshot_datetime ≤ existing.snapshot_datetime :=
                hexE.2.2 r hr' hru
              exact le_trans hre (le_of_lt hts)
            · have hrr : r = row := by simpa using hr'
              rw [hrr]
          · rw [if_neg hek] at hform
            subst hform
            obtain ⟨g1, g2, g3⟩ := hEnt e he
            refine ⟨g1, List.mem_append_left _ g2, ?_⟩
            intro r hr hru
            rcases List.mem_append.mp hr with hr' | hr'
            · exact g3 r hr' hru
            · have hrr : r = row := by simpa using hr'
              rw [hrr, huid] at hru
              have hkeq : uid = e.1 := by cases hru; rfl
              exact absurd (beq_iff_eq.mpr hkeq.symm) (by simpa using hek)
        · rw [show (alistUpdate m uid row).map Prod.fst = m.map Prod.fst from
            alistUpdate_map_fst m uid row]
          exact hKeys
        · intro r hr
          rcases List.mem_append.mp hr with hr' | hr'
          · obtain ⟨e, he, heq⟩ := hCov r hr'
            refine ⟨(if e.1 == uid then (uid, row) else e), ?_, ?_⟩
            · exact List.mem_map.mpr ⟨e, he, rfl⟩
            · by_cases hek : (e.1 == uid) = true
              · rw [if_pos hek]
                rw [heq, eq_of_beq hek]
              · rw [if_neg hek]
                exact heq
          · have hrr : r = row := by simpa using hr'
            refine ⟨(uid, row), ?_, ?_⟩
            · exact List.mem_map.mpr ⟨(uid, existing), hex, by simp⟩
            · rw [hrr]
              exact huid
      · rw [if_neg hts] at h2
        simp only [pure, Except.pure] at h2
        cases h2
        have hle : row.snapshot_datetime ≤ existing.snapshot_datetime := le_of_not_lt hts
        refine ⟨?_, hKeys, ?_⟩
        · intro e he
          obtain ⟨g1, g2, g3⟩ := hEnt e he
          refine ⟨g1, List.mem_append_left _ g2, ?_⟩
          intro r hr hru
          rcases List.mem_append.mp hr with hr' | hr'
          · exact g3 r hr' hru
          · have hrr : r = row := by simpa using hr'
            rw [hrr, huid] at hru
            have hkey : uid = e.1 := by cases hru; rfl
            have hee : e = (uid, existing) :=
              List.inj_on_of_nodup_map hKeys he hex hkey.symm
            rw [hrr, hee]
            exact hle
        · intro r hr
          rcases List.mem_append.mp hr with hr' | hr'
          · exact hCov r hr'
          · have hrr : r = row := by simpa using hr'
            refine ⟨(uid, existing), hex, ?_⟩
            rw [hrr]
            exact huid

theorem dedupAux_inv : ∀ (rest : List StagedRow) (processed : List StagedRow)
    (m m' : List (String × StagedRow)), DedupInv processed m →
    dedupAux m rest = Except.ok m' → DedupInv (processed ++ rest) m'
  | [], processed, m, m', hInv, h => by
    cases h
    simpa using hInv
  | row :: rest, processed, m, m', hInv, h => by
    unfold dedupAux at h
    cases hs : dedupStep m row with
    | error e => rw [hs] at h; exact absurd h (by simp)
    | ok m2 =>
      rw [hs] at h
      have hInv2 := dedupStep_inv hInv hs
      have := dedupAux_inv rest (processed ++ [row]) m2 m' hInv2 h
      simpa using this

/-- C3: schedule consolidation keeps exactly one record per match UID — the
output rows are input rows with pairwise-distinct UIDs, every input row's UID
is represented, and the kept row's snapshot timestamp dominates every input
row with the same UID, so the surviving field values come from a
most-recently-captured snapshot (the choice is made by comparing snapshot
timestamps, never by insertion position). -/
theorem dedup_keeps_latest (rows out : List StagedRow)
    (h : _dedup_matches rows = Except.ok out) :
    (∀ r ∈ out, r ∈ rows) ∧
    List.Pairwise (fun a b => uidOfRow a ≠ uidOfRow b) out ∧
    (∀ r ∈ rows, ∃ q ∈ out, uidOfRow q = uidOfRow r ∧
      r.snapshot_datetime ≤ q.snapshot_datetime) := by
  unfold _dedup_matches at h
  cases haux : dedupAux [] rows with
  | error e => rw [haux] at h; exact Except.noConfusion h
  | ok m =>
    rw [haux] at h
    injection h with h2
    subst h2
    have hInv : DedupInv ([] ++ rows) m :=
      dedupAux_inv rows [] [] m ⟨by simp, by simp, by simp⟩ haux
    rw [List.nil_append] at hInv
    obtain ⟨hEnt, hKeys, hCov⟩ := hInv
    refine ⟨?_, ?_, ?_⟩
    · intro r hr
      obtain ⟨e, he, hes⟩ := List.mem_map.mp hr
      rw [← hes]
      exact (hEnt e he).2.1
    · rw [List.pairwise_map]
      have hkp : List.Pairwise (fun a b : String × StagedRow => a.1 ≠ b.1) m := by
        unfold List.Nodup at hKeys
        rw [List.pairwise_map] at hKeys
        exact hKeys
      refine hkp.imp_of_mem ?_
      intro a b ha hb hne hcon
      rw [(hEnt a ha).1, (hEnt b hb).1] at hcon
      exact hne (Except.ok.inj hcon)
    · intro r hr
      obtain ⟨e, he, heq⟩ := hCov r hr
      refine ⟨e.2, List.mem_map.mpr ⟨e, he, rfl⟩, ?_, ?_⟩
      · rw [(hEnt e he).1, heq]
      · exact (hEnt e he).2.2 r hr heq

/-- A staged row from an early snapshot. -/
def demoRowEarly : StagedRow :=
  { snapshot_datetime := 1000, tournament_id := 375, year := 2026,
    match_date_str := "2026-02-06", start_time_str := "2026-02-06 11:30:00",
    time_suffix := "Starts At", tournament_day := 1, court_name := some "Court 1",
    court_match_num := 1, round_text := "R16", is_doubles := false,
    p1_id := "AB12", p2_id := "CD34" }

/-- The same match captured by a later snapshot, with a corrected court. -/
def demoRowLate : StagedRow :=
  { demoRowEarly with snapshot_datetime := 2000, court_name := some "Stadium" }

/-- Applies C3's theorem at two same-UID snapshots: only the later-timestamped
row's field values survive. -/
theorem dedup_keeps_latest_witness :
    _dedup_matches [demoRowEarly, demoRowLate] = Except.ok [demoRowLate] ∧
    demoRowLate ∈ [demoRowEarly, demoRowLate] ∧
    demoRowEarly.snapshot_datetime ≤ demoRowLate.snapshot_datetime := by
  have h := dedup_keeps_latest [demoRowEarly, demoRowLate] [demoRowLate] (by decide)
  obtain ⟨q, hq, hequ, hts⟩ := h.2.2 demoRowEarly (by decide)
  have hq2 : q = demoRowLate := by simpa using hq
  exact ⟨by decide, h.1 demoRowLate (by simp), hq2 ▸ hts⟩

/-! ## Schedule consolidation: start-time estimation
(`ScheduleTransformer._estimate_times`, atp/tournament/schedule.py lines 359-393)

The transformed row dicts are mutable objects shared between the `rows` list
and the `by_court` dict, so `by_court` is modelled as a map from court key to
row INDEX and every read goes through the current list state. Times are
seconds; the assumed durations are `timedelta(hours=2)` and
`timedelta(hours=1, minutes=30)`.
-/

structure SchedRow where
  tournament_day : Int
  court_name : Option String
  court_match_num : Int
  is_doubles : Bool
  start_time_utc : Option Int
deriving DecidableEq, Repr, Inhabited

def _SINGLES_DURATION : Int := 7200

def _DOUBLES_DURATION : Int := 5400

abbrev CourtKey := Int × Option String × Int

/-- The `by_court` dict key of a row. -/
def rowKey (r : SchedRow) : CourtKey :=
  (r.tournament_day, r.court_name, r.court_match_num)

/-- The predecessor key `(day, court, seq - 1)` looked up for a row. -/
def prevKey (r : SchedRow) : CourtKey :=
  (r.tournament_day, r.court_name, r.court_match_num - 1)

/-- The Python sort key `(day, court or "", seq)`. -/
def sortKey (r : SchedRow) : Int × String × Int :=
  (r.tournament_day, r.court_name.getD "", r.court_match_num)

def keyLookup (m : List (CourtKey × Nat)) (k : CourtKey) : Option Nat :=
  (m.find? (fun e => e.1 == k)).map (fun e => e.2)

/-- Python dict assignment `by_court[key] = row`. -/
def keyUpsert (m : List (CourtKey × Nat)) (k : CourtKey) (i : Nat) :
    List (CourtKey × Nat) :=
  if (m.find? (fun e => e.1 == k)).isSome then
    m.map (fun e => if e.1 == k then (k, i) else e)
  else
    m ++ [(k, i)]

/-- The `by_court` dict: every row inserted in order, later rows overwriting
earlier ones at the same key (object identity = list index). -/
def buildByCourt (rows : List SchedRow) : List (CourtKey × Nat) :=
  rows.enum.foldl (fun m p => keyUpsert m (rowKey p.2) p.1) []

/-- The body of the estimation loop for the row at index `i`: a row with a
time is skipped; otherwise the predecessor `(day, court, seq - 1)` is looked
up through `by_court` and, when it exists and carries a time, the row
receives `prev time + assumed duration` (duration chosen by the PREDECESSOR
row's match type). -/
def estimateStep (bc : List (CourtKey × Nat)) (a : List SchedRow) (i : Nat) :
    List SchedRow :=
  match a[i]? with
  | none => a
  | some row =>
    if row.start_time_utc.isSome then a
    else
      match keyLookup bc (prevKey row) with
      | none => a
      | some j =>
        match a[j]? with
        | none => a
        | some prev =>
          match prev.start_time_utc with
          | none => a
          | some t =>
            let duration := if prev.is_doubles then _DOUBLES_DURATION else _SINGLES_DURATION
            a.set i { row with start_time_utc := some (t + duration) }

def runSteps (bc : List (CourtKey × Nat)) (a : List SchedRow) (l : List Nat) :
    List SchedRow :=
  l.foldl (fun a i => estimateStep bc a i) a

theorem pyStrLtChars_irrefl : ∀ a : List Char, pyStrLtChars a a = false
  | [] => rfl
  | c :: cs => by
    simp only [pyStrLtChars]
    rw [if_neg (lt_irrefl c), if_neg (lt_irrefl c)]
    exact pyStrLtChars_irrefl cs

theorem pyStrLtChars_trans : ∀ a b c : List Char, pyStrLtChars a b = true →
    pyStrLtChars b c = true → pyStrLtChars a c = true
  | [], [], _, h1, _ => by simp [pyStrLtChars] at h1
  | [], _ :: _, [], _, h2 => by simp [pyStrLtChars] at h2
  | [], _ :: _, _ :: _, _, _ => rfl
  | _ :: _, [], _, h1, _ => by simp [pyStrLtChars] at h1
  | _ :: _, _ :: _, [], _, h2 => by simp [pyStrLtChars] at h2
  | x :: xs, y :: ys, z :: zs, h1, h2 => by
    simp only [pyStrLtChars] at h1 h2 ⊢
    rcases lt_trichotomy x y with hxy | hxy | hxy
    · rcases lt_trichotomy y z with hyz | hyz | hyz
      · rw [if_pos (lt_trans hxy hyz)]
      · rw [if_pos (hyz ▸ hxy)]
      · rw [if_neg (not_lt_of_lt hyz), if_pos hyz] at h2
        exact absurd h2 (by simp)
    · subst hxy
      rcases lt_trichotomy x z with hxz | hxz | hxz
      · rw [if_pos hxz]
      · subst hxz
        rw [if_neg (lt_irrefl x), if_neg (lt_irrefl x)] at h1 h2 ⊢
        exact pyStrLtChars_trans xs ys zs h1 h2
      · rw [if_neg (not_lt_of_lt hxz), if_pos hxz] at h2
        exact absurd h2 (by simp)
    · rw [if_neg (not_lt_of_lt hxy), if_pos hxy] at h1
      exact absurd h1 (by simp)

theorem pyStrLt_eq_of_both_false {a b : String} (h1 : pyStrLt a b = false)
    (h2 : pyStrLt b a = false) : a = b := by
  cases a with
  | mk da =>
    cases b with
    | mk db => exact congrArg String.mk (pyStrLtChars_eq_of_not_lt da db h1 h2)

/-- The Python tuple order on `(day, court or "", seq)`; string comparison is
code-point lexicographic (`pyStrLt`). -/
def sortLe (a b : Int × String × Int) : Prop :=
  a.1 < b.1 ∨ (a.1 = b.1 ∧ (pyStrLt a.2.1 b.2.1 = true ∨ (a.2.1 = b.2.1 ∧ a.2.2 ≤ b.2.2)))

instance : ∀ a b, Decidable (sortLe a b) := fun a b => by
  unfold sortLe
  infer_instance

/-- Comparison of two row indices by their rows' sort keys. -/
def idxLe (rows : List SchedRow) (i j : Nat) : Prop :=
  sortLe (sortKey (rows.getD i default)) (sortKey (rows.getD j default))

instance (rows : List SchedRow) : DecidableRel (idxLe rows) := fun i j => by
  unfold idxLe
  infer_instance

theorem sortLe_total (a b : Int × String × Int) : sortLe a b ∨ sortLe b a := by
  unfold sortLe
  rcases lt_trichotomy a.1 b.1 with h1 | h1 | h1
  · exact Or.inl (Or.inl h1)
  · cases h2 : pyStrLt a.2.1 b.2.1 with
    | true => exact Or.inl (Or.inr ⟨h1, Or.inl rfl⟩)
    | false =>
      cases h3 : pyStrLt b.2.1 a.2.1 with
      | true => exact Or.inr (Or.inr ⟨h1.symm, Or.inl rfl⟩)
      | false =>
        have heq : a.2.1 = b.2.1 := pyStrLt_eq_of_both_false h2 h3
        rcases le_total a.2.2 b.2.2 with h4 | h4
        · exact Or.inl (Or.inr ⟨h1, Or.inr ⟨heq, h4⟩⟩)
        · exact Or.inr (Or.inr ⟨h1.symm, Or.inr ⟨heq.symm, h4⟩⟩)
  · exact Or.inr (Or.inl h1)

theorem sortLe_trans {a b c : Int × String × Int} (h1 : sortLe a b) (h2 : sortLe b c) :
    sortLe a c := by
  unfold sortLe at h1 h2 ⊢
  rcases h1 with h1 | ⟨h1e, h1r⟩
  · rcases h2 with h2 | ⟨h2e, _⟩
    · exact Or.inl (lt_trans h1 h2)
    · exact Or.inl (h2e ▸ h1)
  · rcases h2 with h2 | ⟨h2e, h2r⟩
    · exact Or.inl (h1e ▸ h2)
    · refine Or.inr ⟨h1e.trans h2e, ?_⟩
      rcases h1r with h1r | ⟨h1s, h1n⟩
      · rcases h2r with h2r | ⟨h2s, _⟩
        · exact Or.inl (pyStrLtChars_trans _ _ _ h1r h2r)
        · exact Or.inl (h2s ▸ h1r)
      · rcases h2r with h2r | ⟨h2s, h2n⟩
        · exact Or.inl (h1s ▸ h2r)
        · exact Or.inr ⟨h1s.trans h2s, le_trans h1n h2n⟩

instance (rows : List SchedRow) : IsTotal Nat (idxLe rows) :=
  ⟨fun _ _ => sortLe_total _ _⟩

instance (rows : List SchedRow) : IsTrans Nat (idxLe rows) :=
  ⟨fun _ _ _ => sortLe_trans⟩

/-- `_estimate_times`: iterate over the rows in `(day, court or "", seq)`
order (a stable sort, as Python's `sorted`), mutating rows in place. -/
def _estimate_times (rows : List SchedRow) : List SchedRow :=
  runSteps (buildByCourt rows)  rows
    (List.insertionSort (idxLe rows) (List.range rows.length))

example :
    (_estimate_times
      [{ tournament_day := 1, court_name := some "C", court_match_num := 1,
         is_doubles := false, start_time_utc := some 18000 },
       { tournament_day := 1, court_name := some "C", court_match_num := 2,
         is_doubles := false, start_time_utc := none },
       { tournament_day := 1, court_name := some "C", court_match_num := 3,
         is_doubles := true, start_time_utc := none }]).map
      (fun r => r.start_time_utc) = [some 18000, some 25200, some 32400] := by decide

example :
    (_estimate_times
      [{ tournament_day := 1, court_name := some "C", court_match_num := 1,
         is_doubles := true, start_time_utc := some 18000 },
       { tournament_day := 1, court_name := some "C", court_match_num := 2,
         is_doubles := false, start_time_utc := none },
       { tournament_day := 2, court_name := some "C", court_match_num := 2,
         is_doubles := false, start_time_utc := none },
       { tournament_day := 1, court_name := some "D", court_match_num := 2,
         is_doubles := false, start_time_utc := none }]).map
      (fun r => r.start_time_utc) = [some 18000, some 23400, none, none] := by decide

/-- Fields other than the start time, preserved by estimation. -/
def sameShape (a b : SchedRow) : Prop :=
  b.tournament_day = a.tournament_day ∧ b.court_name = a.court_name ∧
  b.court_match_num = a.court_match_num ∧ b.is_doubles = a.is_doubles

theorem sameShape_refl (a : SchedRow) : sameShape a a := ⟨rfl, rfl, rfl, rfl⟩

theorem sameShape_trans {a b c : SchedRow} (h1 : sameShape a b) (h2 : sameShape b c) :
    sameShape a c :=
  ⟨h2.1.trans h1.1, h2.2.1.trans h1.2.1, h2.2.2.1.trans h1.2.2.1, h2.2.2.2.trans h1.2.2.2⟩

theorem estimateStep_length (bc : List (CourtKey × Nat)) (a : List SchedRow) (i : Nat) :
    (estimateStep bc a i).length = a.length := by
  unfold estimateStep
  split
  · rfl
  · split
    · rfl
    · split
      · rfl
      · split
        · rfl
        · split
          · rfl
          · exact List.length_set a _ _

theorem estimateStep_getElem_ne (bc : List (CourtKey × Nat)) (a : List SchedRow)
    (i k : Nat) (h : i ≠ k) : (estimateStep bc a i)[k]? = a[k]? := by
  unfold estimateStep
  split
  · rfl
  · split
    · rfl
    · split
      · rfl
      · split
        · rfl
        · split
          · rfl
          · exact List.getElem?_set_ne h

theorem estimateStep_cases (bc : List (CourtKey × Nat)) (a : List SchedRow) (i : Nat) :
    estimateStep bc a i = a ∨
    ∃ row v, a[i]? = some row ∧
      estimateStep bc a i = a.set i { row with start_time_utc := some v } := by
  unfold estimateStep
  split
  · exact Or.inl rfl
  · next row hrow =>
    split
    · exact Or.inl rfl
    · split
      · exact Or.inl rfl
      · next j hj =>
        split
        · exact Or.inl rfl
        · next prev hprev =>
          split
          · exact Or.inl rfl
          · next t ht =>
            exact Or.inr ⟨row,
              t + (if prev.is_doubles then _DOUBLES_DURATION else _SINGLES_DURATION),
              hrow, rfl⟩

theorem estimateStep_shape (bc : List (CourtKey × Nat)) (a : List SchedRow)
    (i k : Nat) {rk : SchedRow} (h : a[k]? = some rk) :
    ∃ rk', (estimateStep bc a i)[k]? = some rk' ∧ sameShape rk rk' := by
  rcases estimateStep_cases bc a i with he | ⟨row, v, hrow, he⟩
  · rw [he]
    exact ⟨rk, h, sameShape_refl rk⟩
  · rw [he]
    by_cases hik : i = k
    · subst hik
      have hrk : rk = row := by
        rw [h] at hrow
        exact Option.some.inj hrow
      subst hrk
      refine ⟨{ rk with start_time_utc := some v }, ?_, ⟨rfl, rfl, rfl, rfl⟩⟩
      exact List.getElem?_set_self (List.getElem?_eq_some_iff.mp h).1
    · rw [List.getElem?_set_ne hik]
      exact ⟨rk, h, sameShape_refl rk⟩

theorem runSteps_length (bc : List (CourtKey × Nat)) :
    ∀ (l : List Nat) (a : List SchedRow), (runSteps bc a l).length = a.length
  | [], _ => rfl
  | i :: rest, a => by
    show (runSteps bc (estimateStep bc a i) rest).length = a.length
    rw [runSteps_length bc rest (estimateStep bc a i), estimateStep_length]

theorem runSteps_getElem_not_mem (bc : List (CourtKey × Nat)) :
    ∀ (l : List Nat) (a : List SchedRow) (k : Nat), k ∉ l →
      (runSteps bc a l)[k]? = a[k]?
  | [], _, _, _ => rfl
  | i :: rest, a, k, hk => by
    show (runSteps bc (estimateStep bc a i) rest)[k]? = a[k]?
    rw [runSteps_getElem_not_mem bc rest (estimateStep bc a i) k
      (fun hc => hk (List.mem_cons_of_mem _ hc))]
    exact estimateStep_getElem_ne bc a i k (fun hc => hk (hc ▸ List.mem_cons_self i rest))

theorem runSteps_shape (bc : List (CourtKey × Nat)) :
    ∀ (l : List Nat) (a : List SchedRow) (k : Nat) {rk : SchedRow}, a[k]? = some rk →
      ∃ rk', (runSteps bc a l)[k]? = some rk' ∧ sameShape rk rk'
  | [], _, _, _, h => ⟨_, h, sameShape_refl _⟩
  | i :: rest, a, k, rk, h => by
    obtain ⟨r1, h1, hs1⟩ := estimateStep_shape bc a i k h
    obtain ⟨r2, h2, hs2⟩ := runSteps_shape bc rest (estimateStep bc a i) k h1
    exact ⟨r2, h2, sameShape_trans hs1 hs2⟩

theorem runSteps_append (bc : List (CourtKey × Nat)) (a : List SchedRow)
    (l1 l2 : List Nat) : runSteps bc a (l1 ++ l2) = runSteps bc (runSteps bc a l1) l2 :=
  List.foldl_append _ _ _ _

theorem keyLookup_mem {m : List (CourtKey × Nat)} {k : CourtKey} {j : Nat}
    (h : keyLookup m k = some j) : (k, j) ∈ m := by
  unfold keyLookup at h
  rw [Option.map_eq_some'] at h
  obtain ⟨e, he, hej⟩ := h
  have hmem := List.mem_of_find?_eq_some he
  have hbeq := List.find?_some he
  have hk : e.1 = k := eq_of_beq hbeq
  have : e = (k, j) := by
    cases e
    simp only at hk hej
    rw [hk, hej]
  rw [← this]
  exact hmem

theorem keyUpsert_mem {m : List (CourtKey × Nat)} {k : CourtKey} {i : Nat}
    {e : CourtKey × Nat} (h : e ∈ keyUpsert m k i) : e ∈ m ∨ e = (k, i) := by
  unfold keyUpsert at h
  split at h
  · obtain ⟨e0, he0, hform⟩ := List.mem_map.mp h
    by_cases hk : (e0.1 == k) = true
    · rw [if_pos hk] at hform
      exact Or.inr hform.symm
    · rw [if_neg hk] at hform
      exact Or.inl (hform ▸ he0)
  · rcases List.mem_append.mp h with h' | h'
    · exact Or.inl h'
    · exact Or.inr (by simpa using h')

theorem upsert_pred (k k' : CourtKey) (i : Nat) (e : CourtKey × Nat) :
    ((if e.1 == k then ((k, i) : CourtKey × Nat) else e).1 == k') = (e.1 == k') := by
  by_cases h : (e.1 == k) = true
  · rw [if_pos h]
    have he : e.1 = k := eq_of_beq h
    rw [he]
  · rw [if_neg h]

theorem keyLookup_keyUpsert_isSome_self (m : List (CourtKey × Nat)) (k : CourtKey)
    (i : Nat) : (keyLookup (keyUpsert m k i) k).isSome = true := by
  unfold keyUpsert
  split
  · next hcond =>
    unfold keyLookup
    rw [List.find?_map]
    have hp : ((fun e : CourtKey × Nat => e.1 == k) ∘
        (fun e : CourtKey × Nat => if e.1 == k then (k, i) else e)) =
        (fun e : CourtKey × Nat => e.1 == k) := funext (fun e => upsert_pred k k i e)
    rw [hp]
    simp only [Option.isSome_map']
    exact hcond
  · unfold keyLookup
    rw [List.find?_append]
    next hcond =>
      have hnone : m.find? (fun e => e.1 == k) = none :=
        Option.not_isSome_iff_eq_none.mp hcond
      rw [hnone]
      simp

theorem keyLookup_keyUpsert_isSome_mono (m : List (CourtKey × Nat)) (k k' : CourtKey)
    (i : Nat) (h : (keyLookup m k').isSome = true) :
    (keyLookup (keyUpsert m k i) k').isSome = true := by
  unfold keyUpsert
  split
  · unfold keyLookup
    rw [List.find?_map]
    have hp : ((fun e : CourtKey × Nat => e.1 == k') ∘
        (fun e : CourtKey × Nat => if e.1 == k then (k, i) else e)) =
        (fun e : CourtKey × Nat => e.1 == k') := funext (fun e => upsert_pred k k' i e)
    rw [hp]
    simp only [Option.isSome_map']
    unfold keyLookup at h
    rw [Option.isSome_map'] at h
    exact h
  · unfold keyLookup at h ⊢
    rw [List.find?_append]
    cases hf : m.find? (fun e => e.1 == k') with
    | none => rw [hf] at h; exact absurd h (by simp)
    | some e => simp [hf]

theorem foldUpsert_sound (rows : List SchedRow) :
    ∀ (ps : List (Nat × SchedRow)) (m : List (CourtKey × Nat)),
      (∀ e ∈ m, ∃ rj, rows[e.2]? = some rj ∧ rowKey rj = e.1) →
      (∀ p ∈ ps, rows[p.1]? = some p.2) →
      ∀ e ∈ ps.foldl (fun m p => keyUpsert m (rowKey p.2) p.1) m,
        ∃ rj, rows[e.2]? = some rj ∧ rowKey rj = e.1
  | [], _, hm, _, e, he => hm e he
  | p :: rest, m, hm, hps, e, he => by
    refine foldUpsert_sound rows rest (keyUpsert m (rowKey p.2) p.1) ?_
      (fun q hq => hps q (List.mem_cons_of_mem _ hq)) e he
    intro e2 he2
    rcases keyUpsert_mem he2 with h2 | h2
    · exact hm e2 h2
    · rw [h2]
      exact ⟨p.2, hps p (List.mem_cons_self p rest), rfl⟩

theorem foldUpsert_complete :
    ∀ (ps : List (Nat × SchedRow)) (m : List (CourtKey × Nat)) (k : CourtKey),
      ((∃ p ∈ ps, rowKey p.2 = k) ∨ (keyLookup m k).isSome = true) →
      (keyLookup (ps.foldl (fun m p => keyUpsert m (rowKey p.2) p.1) m) k).isSome = true
  | [], _, _, h => by
    rcases h with ⟨p, hp, _⟩ | h
    · exact absurd hp (List.not_mem_nil p)
    · exact h
  | p :: rest, m, k, h => by
    refine foldUpsert_complete rest (keyUpsert m (rowKey p.2) p.1) k ?_
    rcases h with ⟨q, hq, hqk⟩ | h
    · rcases List.mem_cons.mp hq with rfl | hq2
      · exact Or.inr (hqk ▸ keyLookup_keyUpsert_isSome_self m (rowKey q.2) q.1)
      · exact Or.inl ⟨q, hq2, hqk⟩
    · exact Or.inr (keyLookup_keyUpsert_isSome_mono m (rowKey p.2) k p.1 h)

theorem buildByCourt_sound {rows : List SchedRow} {k : CourtKey} {j : Nat}
    (h : keyLookup (buildByCourt rows) k = some j) :
    ∃ rj, rows[j]? = some rj ∧ rowKey rj = k := by
  have hmem := keyLookup_mem h
  have hall := foldUpsert_sound rows rows.enum []
    (fun e he => absurd he (List.not_mem_nil e))
    (fun p hp => by
      obtain ⟨n, x⟩ := p
      exact List.mk_mem_enum_iff_getElem?.mp hp)
  exact hall (k, j) hmem

theorem buildByCourt_lookup_isSome {rows : List SchedRow} {j : Nat} {rj : SchedRow}
    (h : rows[j]? = some rj) :
    (keyLookup (buildByCourt rows) (rowKey rj)).isSome = true :=
  foldUpsert_complete rows.enum [] (rowKey rj)
    (Or.inl ⟨(j, rj), List.mk_mem_enum_iff_getElem?.mpr h, rfl⟩)

theorem buildByCourt_lookup_eq {rows : List SchedRow}
    (hkeys : ∀ (i j : Nat) (ri rj : SchedRow), rows[i]? = some ri → rows[j]? = some rj →
      rowKey ri = rowKey rj → i = j)
    {j : Nat} {rj : SchedRow} (h : rows[j]? = some rj) :
    keyLookup (buildByCourt rows) (rowKey rj) = some j := by
  have hs := buildByCourt_lookup_isSome h
  cases hl : keyLookup (buildByCourt rows) (rowKey rj) with
  | none => rw [hl] at hs; exact absurd hs (by simp)
  | some j0 =>
    obtain ⟨rj0, hrj0, hk0⟩ := buildByCourt_sound hl
    rw [hkeys j0 j rj0 rj hrj0 h hk0]

theorem rowKey_ne_prevKey (r : SchedRow) : rowKey r ≠ prevKey r := by
  unfold rowKey prevKey
  intro h
  have h2 : r.court_match_num = r.court_match_num - 1 := congrArg (fun p => p.2.2) h
  omega

theorem rowKey_eq_prevKey_elim {a b : SchedRow} (h : rowKey a = prevKey b) :
    a.tournament_day = b.tournament_day ∧ a.court_name = b.court_name ∧
    a.court_match_num = b.court_match_num - 1 :=
  ⟨congrArg (fun p => p.1) h, congrArg (fun p => p.2.1) h,
   congrArg (fun p => p.2.2) h⟩

theorem pyStrLt_irrefl (s : String) : pyStrLt s s = false :=
  pyStrLtChars_irrefl s.data

theorem not_sortLe_prev (day : Int) (s : String) (n : Int) :
    ¬ sortLe (day, s, n) (day, s, n - 1) := by
  unfold sortLe
  intro h
  rcases h with h | ⟨_, h⟩
  · exact lt_irrefl day h
  · rcases h with h | ⟨_, h⟩
    · rw [pyStrLt_irrefl] at h
      exact Bool.false_ne_true h
    · have h2 : n ≤ n - 1 := h
      omega

theorem getD_of_getElem? {l : List SchedRow} {i : Nat} {r : SchedRow}
    (h : l[i]? = some r) : l.getD i default = r := by
  simp [List.getD, h]

theorem estimateStep_skip (bc : List (CourtKey × Nat)) (a : List SchedRow) (i : Nat)
    {row : SchedRow} (hrow : a[i]? = some row)
    (ht : row.start_time_utc.isSome = true) : estimateStep bc a i = a := by
  unfold estimateStep
  simp [hrow, ht]

theorem estimateStep_nopred (bc : List (CourtKey × Nat)) (a : List SchedRow) (i : Nat)
    {row : SchedRow} (hrow : a[i]? = some row)
    (hnone : row.start_time_utc = none)
    (hlook : keyLookup bc (prevKey row) = none) : estimateStep bc a i = a := by
  unfold estimateStep
  simp [hrow, hnone, hlook]

theorem estimateStep_prev_none (bc : List (CourtKey × Nat)) (a : List SchedRow)
    (i j : Nat) {row prev : SchedRow} (hrow : a[i]? = some row)
    (hnone : row.start_time_utc = none)
    (hlook : keyLookup bc (prevKey row) = some j)
    (hprev : a[j]? = some prev) (hpt : prev.start_time_utc = none) :
    estimateStep bc a i = a := by
  unfold estimateStep
  simp [hrow, hnone, hlook, hprev, hpt]

theorem estimateStep_prev_some (bc : List (CourtKey × Nat)) (a : List SchedRow)
    (i j : Nat) {row prev : SchedRow} {t : Int} (hrow : a[i]? = some row)
    (hnone : row.start_time_utc = none)
    (hlook : keyLookup bc (prevKey row) = some j)
    (hprev : a[j]? = some prev) (hpt : prev.start_time_utc = some t) :
    estimateStep bc a i = a.set i { row with
      start_time_utc := some (t + (if prev.is_doubles then _DOUBLES_DURATION else _SINGLES_DURATION)) } := by
  unfold estimateStep
  simp [hrow, hnone, hlook, hprev, hpt]

/-- C4: `_estimate_times` preserves the row count and shape; a row that
already has a `start_time_utc` is returned unchanged; a row without one
stays without one when no row carries its predecessor key
`(day, court, seq - 1)`; and when some row does (keys assumed unique, as
`by_court` keeps only the last row per key otherwise), the row's estimated
time is the predecessor's FINAL (possibly itself estimated) time plus the
duration assumed from the predecessor's discipline — 2 h singles, 1.5 h
doubles — or stays null if the predecessor never obtains a time. Because the
estimation sweep visits rows in ascending `(day, court or "", seq)` order,
the predecessor's final time is already in place when the row is visited,
which is what makes estimates chain across consecutive matches. -/
theorem estimate_times_spec (rows : List SchedRow)
    (hkeys : ∀ (i j : Nat) (ri rj : SchedRow), rows[i]? = some ri → rows[j]? = some rj →
      rowKey ri = rowKey rj → i = j) :
    (_estimate_times rows).length = rows.length ∧
    ∀ (i : Nat) (r r' : SchedRow), rows[i]? = some r → (_estimate_times rows)[i]? = some r' →
      sameShape r r' ∧
      (r.start_time_utc.isSome = true → r' = r) ∧
      (r.start_time_utc = none →
        ((∀ (j : Nat) (rj : SchedRow), rows[j]? = some rj → rowKey rj ≠ prevKey r) →
          r'.start_time_utc = none) ∧
        (∀ (j : Nat) (rj rj' : SchedRow), rows[j]? = some rj →
          (_estimate_times rows)[j]? = some rj' → rowKey rj = prevKey r →
          r'.start_time_utc = rj'.start_time_utc.map
            (fun t => t + (if rj.is_doubles then _DOUBLES_DURATION else _SINGLES_DURATION)))) := by
  refine ⟨runSteps_length _ _ _, ?_⟩
  intro i r r' hr hr'
  have hlt : i < rows.length := (List.getElem?_eq_some_iff.mp hr).1
  have hperm := List.perm_insertionSort (idxLe rows) (List.range rows.length)
  have hnodup : (List.insertionSort (idxLe rows) (List.range rows.length)).Nodup :=
    hperm.nodup_iff.mpr (List.nodup_range _)
  have hsorted : List.Pairwise (idxLe rows)
      (List.insertionSort (idxLe rows) (List.range rows.length)) :=
    List.sorted_insertionSort (idxLe rows) (List.range rows.length)
  have hmemi : i ∈ List.insertionSort (idxLe rows) (List.range rows.length) :=
    hperm.mem_iff.mpr (List.mem_range.mpr hlt)
  obtain ⟨P, S, horder⟩ := List.append_of_mem hmemi
  rw [horder] at hnodup hsorted
  have hnd := List.nodup_append.mp hnodup
  have hiP : i ∉ P := fun hip => hnd.2.2 hip (List.mem_cons_self i S)
  have hiS : i ∉ S := (List.nodup_cons.mp hnd.2.1).1
  have hSle : ∀ y ∈ S, idxLe rows i y :=
    (List.pairwise_cons.mp (List.pairwise_append.mp hsorted).2.1).1
  have haP : (runSteps (buildByCourt rows) rows P)[i]? = some r := by
    rw [runSteps_getElem_not_mem (buildByCourt rows) P rows i hiP]
    exact hr
  have hout : _estimate_times rows =
      runSteps (buildByCourt rows)
        (estimateStep (buildByCourt rows) (runSteps (buildByCourt rows) rows P) i) S := by
    show runSteps (buildByCourt rows) rows
        (List.insertionSort (idxLe rows) (List.range rows.length)) = _
    rw [horder, runSteps_append]
    rfl
  have houti : (_estimate_times rows)[i]? =
      (estimateStep (buildByCourt rows) (runSteps (buildByCourt rows) rows P) i)[i]? := by
    rw [hout]
    exact runSteps_getElem_not_mem _ S _ i hiS
  obtain ⟨r2, hr2, hshape⟩ := runSteps_shape (buildByCourt rows)
    (List.insertionSort (idxLe rows) (List.range rows.length)) rows i hr
  have hr2e : r2 = r' := by
    have h3 : (_estimate_times rows)[i]? = some r2 := hr2
    rw [hr'] at h3
    exact (Option.some.inj h3).symm
  refine ⟨hr2e ▸ hshape, ?_, ?_⟩
  · intro hsome
    have hstep := estimateStep_skip (buildByCourt rows) _ i haP hsome
    rw [houti, hstep, haP] at hr'
    exact (Option.some.inj hr').symm
  · intro hnone
    constructor
    · intro hnopred
      have hlook : keyLookup (buildByCourt rows) (prevKey r) = none := by
        cases hl : keyLookup (buildByCourt rows) (prevKey r) with
        | none => rfl
        | some j =>
          obtain ⟨rj, hrj, hkeq⟩ := buildByCourt_sound hl
          exact absurd hkeq (hnopred j rj hrj)
      have hstep := estimateStep_nopred (buildByCourt rows) _ i haP hnone hlook
      rw [houti, hstep, haP] at hr'
      rw [← Option.some.inj hr']
      exact hnone
    · intro j rj rj' hrj hrj' hkeq
      have hlook : keyLookup (buildByCourt rows) (prevKey r) = some j := by
        rw [← hkeq]
        exact buildByCourt_lookup_eq hkeys hrj
      have hji : j ≠ i := by
        intro hje
        subst hje
        rw [hr] at hrj
        have hre : r = rj := Option.some.inj hrj
        rw [← hre] at hkeq
        exact rowKey_ne_prevKey r hkeq
      have hjS : j ∉ S := by
        intro hjs
        have hle := hSle j hjs
        unfold idxLe at hle
        rw [getD_of_getElem? hr, getD_of_getElem? hrj] at hle
        obtain ⟨hday, hcourt, hnum⟩ := rowKey_eq_prevKey_elim hkeq
        have hskj : sortKey rj =
            (r.tournament_day, r.court_name.getD "", r.court_match_num - 1) := by
          unfold sortKey
          rw [hday, hcourt, hnum]
        have hskr : sortKey r =
            (r.tournament_day, r.court_name.getD "", r.court_match_num) := rfl
        rw [hskj, hskr] at hle
        exact not_sortLe_prev _ _ _ hle
      have haPj : (runSteps (buildByCourt rows) rows P)[j]? = some rj' := by
        have h1 : (_estimate_times rows)[j]? =
            (estimateStep (buildByCourt rows) (runSteps (buildByCourt rows) rows P) i)[j]? := by
          rw [hout]
          exact runSteps_getElem_not_mem _ S _ j hjS
        rw [h1, estimateStep_getElem_ne _ _ i j (fun h => hji h.symm)] at hrj'
        exact hrj'
      obtain ⟨rjq, hq1, hq2⟩ := runSteps_shape (buildByCourt rows) P rows j hrj
      rw [haPj] at hq1
      have hql : rj' = rjq := Option.some.inj hq1
      rw [← hql] at hq2
      have hdoubles : rj'.is_doubles = rj.is_doubles := hq2.2.2.2
      cases hts : rj'.start_time_utc with
      | none =>
        have hstep := estimateStep_prev_none (buildByCourt rows) _ i j haP hnone hlook haPj hts
        rw [houti, hstep, haP] at hr'
        rw [← Option.some.inj hr']
        exact hnone
      | some t =>
        have hstep := estimateStep_prev_some (buildByCourt rows) _ i j haP hnone hlook haPj hts
        rw [houti, hstep] at hr'
        have hlen : i < (runSteps (buildByCourt rows) rows P).length := by
          rw [runSteps_length]
          exact hlt
        rw [List.getElem?_set_self hlen] at hr'
        have hr'eq : r' = { r with
            start_time_utc := some (t + (if rj'.is_doubles then _DOUBLES_DURATION else _SINGLES_DURATION)) } :=
          (Option.some.inj hr').symm
        rw [hr'eq, hdoubles]
        rfl

def demoSchedRow0 : SchedRow :=
  { tournament_day := 1, court_name := some "Grandstand", court_match_num := 1,
    is_doubles := false, start_time_utc := some 18000 }

def demoSchedRow1 : SchedRow :=
  { tournament_day := 1, court_name := some "Grandstand", court_match_num := 2,
    is_doubles := false, start_time_utc := none }

def demoSchedRows : List SchedRow := [demoSchedRow0, demoSchedRow1]

def demoSchedOut1 : SchedRow :=
  { tournament_day := 1, court_name := some "Grandstand", court_match_num := 2,
    is_doubles := false, start_time_utc := some 25200 }

theorem demoSchedRows_keys : ∀ (i j : Nat) (ri rj : SchedRow),
    demoSchedRows[i]? = some ri → demoSchedRows[j]? = some rj →
    rowKey ri = rowKey rj → i = j := by
  intro i j ri rj hi hj hk
  have hi2 : i < 2 := (List.getElem?_eq_some_iff.mp hi).1
  have hj2 : j < 2 := (List.getElem?_eq_some_iff.mp hj).1
  interval_cases i <;> interval_cases j <;> simp_all [demoSchedRows] <;>
    [skip; skip] <;>
    · rw [← hi, ← hj] at hk
      exact absurd hk (by decide)

theorem estimate_times_spec_witness :
    (_estimate_times demoSchedRows).length = demoSchedRows.length ∧
    sameShape demoSchedRow1 demoSchedOut1 ∧
    demoSchedOut1.start_time_utc = demoSchedRow0.start_time_utc.map
      (fun t => t + (if demoSchedRow0.is_doubles then _DOUBLES_DURATION else _SINGLES_DURATION)) := by
  have hmain := estimate_times_spec demoSchedRows demoSchedRows_keys
  have h1 : demoSchedRows[1]? = some demoSchedRow1 := rfl
  have ho1 : (_estimate_times demoSchedRows)[1]? = some demoSchedOut1 := by decide
  have h0 : demoSchedRows[0]? = some demoSchedRow0 := rfl
  have ho0 : (_estimate_times demoSchedRows)[0]? = some demoSchedRow0 := by decide
  obtain ⟨hshape, _, hcase⟩ := hmain.2 1 demoSchedRow1 demoSchedOut1 h1 ho1
  have hmap := (hcase (by decide)).2 0 demoSchedRow0 demoSchedRow0 h0 ho0 (by decide)
  exact ⟨hmain.1, hshape, hmap⟩
